import Mathlib

/-!
Verification development for the `vonx.indy.service` module (`IndyService`):
a shallow embedding of the service actor, its registries of wallet / agent /
connection configurations, the synchronization engine, the ledger bootstrap
and the credential issuance pipeline, together with theorems checking the
natural-language specification against this embedding.

Python exceptions are modelled by an explicit `Except Err` result; mutation of
`self` is modelled by explicit state passing; every call made to the external
ledger collaborator (or over HTTP) is recorded in an explicit trace of
`LCall` events, and the collaborator's behaviour is supplied by a `LedgerEnv`
oracle.  Classes that live in modules outside the provided sources
(`vonx.indy.config`, `vonx.indy.errors`, the `ServiceBase` machinery) are
modelled from the spec; each such definition is marked in its doc comment.
-/

namespace VonX

/-- Agent types (`AgentType` enum from `vonx.indy.config`, referenced as
`AgentType.issuer` / `AgentType.verifier` in `service.py`). -/
inductive AgentType where
  | issuer
  | holder
  | verifier
  deriving DecidableEq, Repr

/-- Modelled from the spec: `SchemaCfg(schema_name, schema_version, attr_names,
origin_did)` — the immutable schema descriptor of a credential type. -/
structure SchemaCfg where
  name : String
  version : String
  attr_names : List String
  origin_did : Option String
  deriving DecidableEq, Repr

/-- A credential type entry of an agent.  In the source this is a plain dict
with keys `definition`, `ledger_schema`, `cred_def`; `ledger_schema` is the
parsed ledger schema (its `seqNo` is the only field the service reads) and
`cred_def` the parsed credential definition, both absent until published or
found on the ledger. -/
structure CredTypeCfg where
  definition : SchemaCfg
  ledger_schema : Option Nat
  cred_def : Option Nat
  deriving DecidableEq, Repr

/-- Modelled from the spec: `WalletCfg` — wallet id, name, seed and the
`created` lifecycle flag. -/
structure WalletCfg where
  wallet_id : String
  name : String
  seed : String
  created : Bool
  deriving DecidableEq, Repr

/-- Modelled from the spec: `AgentCfg` — agent identity, its wallet reference,
its owned credential types and the lifecycle flags `created`, `opened`,
`registered`, `synced`. -/
structure AgentCfg where
  agent_id : String
  agent_type : AgentType
  wallet_id : String
  did : String
  verkey : String
  role : String
  cred_types : List CredTypeCfg
  created : Bool
  opened : Bool
  registered : Bool
  synced : Bool
  deriving DecidableEq, Repr

/-- Modelled from the spec: `ConnectionCfg` — connection id and type, owning
agent reference, and the lifecycle flags `created`, `opened`, `synced`. -/
structure ConnectionCfg where
  connection_id : String
  connection_type : String
  agent_id : String
  created : Bool
  opened : Bool
  synced : Bool
  deriving DecidableEq, Repr

/-- Python exception classes raised by (or escaping from) the service code.
`indyConfig` is `IndyConfigError` and `pipeline` covers issuance-pipeline
failures; both are subclasses of `IndyError` (modelled from the spec: domain
errors are converted to failure responses at the actor boundary, so they are
caught by the `except IndyError` handlers).  `keyError` is a Python `KeyError`
from a plain dict subscript; `unboundSyncError` stands for the statements
`raise ServiceSyncError(...)` in `service.py` — the name `ServiceSyncError` is
never imported or defined in that module, so at runtime these statements raise
a `NameError` (we keep the intended message for identification); `unboundLocal`
is an unbound local variable; `typeError` a Python `TypeError`; `clientError`
an `aiohttp` transport error; `osError` a filesystem `OSError`. -/
inductive Err where
  | indyConfig (msg : String)
  | pipeline (msg : String)
  | keyError (key : String)
  | unboundSyncError (msg : String)
  | unboundLocal (name : String)
  | typeError (msg : String)
  | clientError (msg : String)
  | osError (msg : String)
  deriving DecidableEq, Repr

/-- Which exception classes are caught by `except IndyError` in
`_service_request`. -/
def Err.isIndyError : Err → Bool
  | .indyConfig _ => true
  | .pipeline _ => true
  | _ => false

/-- `str(e)` for the caught exception, used to build `IndyServiceFail`. -/
def Err.msg : Err → String
  | .indyConfig m => m
  | .pipeline m => m
  | .keyError k => k
  | .unboundSyncError m => m
  | .unboundLocal n => n
  | .typeError m => m
  | .clientError m => m
  | .osError m => m

/-- One call to the external ledger collaborator / filesystem / HTTP
transport, recorded in the trace of each operation. -/
inductive LCall where
  | poolOpen
  | mkdirParents (path : String)
  | fetchGenesis (url : String)
  | writeGenesis (path : String)
  | walletCreate (wallet_id : String)
  | agentCreate (agent_id : String)
  | agentOpen (agent_id : String)
  | getNym (did : String)
  | registerDid (did : String)
  | getSchema (name version : String)
  | sendSchema (name version : String)
  | getCredDef (seqNo : Nat)
  | sendCredDef (name version : String)
  | connCreate (connection_id : String)
  | connOpen (connection_id : String)
  | connSync (connection_id : String)
  | createCredOffer (agent_id : String)
  | genCredRequest (connection_id : String)
  | createCred (agent_id : String)
  | storeCred (connection_id : String)
  | httpGetStatus (url : String)
  deriving DecidableEq, Repr

/-- The two ledger-publish calls (`send_schema` / `send_cred_def`). -/
def LCall.isPublish : LCall → Bool
  | .sendSchema _ _ => true
  | .sendCredDef _ _ => true
  | _ => false

/-- Is this a wallet-creation call? -/
def LCall.isWalletCreate : LCall → Bool
  | .walletCreate _ => true
  | _ => false

/-- Service responses (`vonx.indy.messages`).  Status payloads carry the
lifecycle flags of the corresponding config (modelled from the spec: the
`status` property of each config reflects its flags). -/
inductive Reply where
  | ack
  | fail (msg : String)
  | ledgerStatus (text : String)
  | walletStatus (wallet_id : String) (created : Bool)
  | agentStatus (agent_id : String) (created registered synced : Bool)
  | connectionStatus (connection_id : String) (created opened synced : Bool)
  | stored (payload : String)
  deriving DecidableEq, Repr

/-- Constructor parameters forwarded to `WalletCfg(**params)`; an empty
`wallet_id` stands for an id not supplied by the caller. -/
structure WalletParams where
  wallet_id : String
  name : String
  seed : String
  deriving DecidableEq, Repr

/-- Constructor parameters forwarded to `AgentCfg(agent_type, wallet_id,
**params)`; an empty `agent_id` stands for an id not supplied by the caller. -/
structure AgentParams where
  agent_id : String
  did : String
  verkey : String
  role : String
  deriving DecidableEq, Repr

/-- Constructor parameters forwarded to `ConnectionCfg(connection_type,
agent_id, **params)`. -/
structure ConnParams where
  connection_id : String
  deriving DecidableEq, Repr

/-- The closed set of request variants dispatched by `_service_request`.
`otherReq` stands for any request matching none of the `isinstance` tests. -/
inductive Request where
  | ledgerStatusReq
  | registerAgent (agent_type : AgentType) (wallet_id : String) (config : AgentParams)
  | registerConnection (connection_type : String) (agent_id : String) (config : ConnParams)
  | registerCredentialType (issuer_id schema_name schema_version : String)
      (origin_did : Option String) (attr_names : List String)
  | registerWallet (config : WalletParams)
  | agentStatusReq (agent_id : String)
  | connectionStatusReq (connection_id : String)
  | walletStatusReq (wallet_id : String)
  | issueCredential (connection_id schema_name schema_version : String)
      (origin_did : Option String) (cred_data : String)
  | otherReq
  deriving DecidableEq, Repr

/-- Mutable state of an `IndyService` instance: the `_config` entries the
service reads (`auto_register`, `genesis_path`), the `_genesis_path` and
`_ledger_url` attributes, the three config registries (insertion-ordered
dicts, modelled as association lists) and the `_opened` pool flag. -/
structure IndyState where
  config_auto_register : Option Bool
  config_genesis_path : Option String
  genesis_path : Option String
  ledger_url : Option String
  wallets : List (String × WalletCfg)
  agents : List (String × AgentCfg)
  connections : List (String × ConnectionCfg)
  opened : Bool
  deriving DecidableEq, Repr

/-- Oracle for everything outside the service: filesystem tests, HTTP
endpoints and the ledger collaborator's replies.  A `… → Bool` field answers
"does this call succeed / is this present"; value fields give the payloads
the collaborator returns. -/
structure LedgerEnv where
  rand_suffix : String
  path_exists : String → Bool
  path_is_dir : String → Bool
  parent_exists : String → Bool
  fetch_conn_ok : String → Bool
  fetch_status : String → Nat
  fetch_body_json_ok : String → Bool
  nym_found : String → Bool
  register_http_ok : String → Bool
  register_resp_ok : String → Bool
  schema_on_ledger : String → String → String → Bool
  ledger_schema_seqNo : String → String → String → Nat
  send_schema_seqNo : Nat
  cred_def_on_ledger : String → Nat → Bool
  ledger_cred_def : String → Nat → Nat
  sent_cred_def : Nat
  conn_sync_ok : String → Bool
  offer_ok : Bool
  gen_request_ok : Bool
  create_cred_ok : Bool
  store_ok : Bool
  req_data : String
  req_metadata : String
  stored_result : String
  ledger_status : Option String

/-- Python truthiness of an optional string attribute (`None` and `""` are
falsy). -/
def getTruthy : Option String → Option String
  | none => none
  | some s => if s.isEmpty then none else some s

/-- Lookup in an insertion-ordered dict modelled as an association list. -/
def lookupA {α : Type} (m : List (String × α)) (k : String) : Option α :=
  match m with
  | [] => none
  | (k', v) :: rest => if k' = k then some v else lookupA rest k

/-- Membership test (`k in d`). -/
def containsA {α : Type} (m : List (String × α)) (k : String) : Bool :=
  (lookupA m k).isSome

/-- Dict insertion of a fresh key (`d[k] = v`); ordered dicts append new keys
at the end. -/
def insertA {α : Type} (m : List (String × α)) (k : String) (v : α) :
    List (String × α) :=
  m ++ [(k, v)]

/-- In-place update of the value stored under an existing key (Python mutates
the config object held in the dict). -/
def updateA {α : Type} (m : List (String × α)) (k : String) (v : α) :
    List (String × α) :=
  match m with
  | [] => []
  | (k', v') :: rest =>
    if k' = k then (k, v) :: updateA rest k v else (k', v') :: updateA rest k v

/-- `_make_id(pfx)`: a generated identifier — prefix plus random letters,
supplied by the environment. -/
def make_id (env : LedgerEnv) (pfx : String) : String :=
  pfx ++ env.rand_suffix

/-- Modelled from the spec: the `status` of a wallet reflects its `created`
flag. -/
def WalletCfg.status (w : WalletCfg) : Bool := w.created

/-- Modelled from the spec: the `status` of an agent reflects its lifecycle
flags (`created`, `registered`, `synced`). -/
def AgentCfg.status (a : AgentCfg) : Bool × Bool × Bool :=
  (a.created, a.registered, a.synced)

/-- Modelled from the spec: the `status` of a connection reflects its
lifecycle flags (`created`, `opened`, `synced`). -/
def ConnectionCfg.status (c : ConnectionCfg) : Bool × Bool × Bool :=
  (c.created, c.opened, c.synced)

/-- Modelled from the spec: `AgentCfg.add_credential_type` appends a new
credential type (with its immutable schema definition and no ledger artifacts
yet) to the agent's ordered sequence of credential types. -/
def AgentCfg.add_credential_type (a : AgentCfg) (schema : SchemaCfg) : AgentCfg :=
  { a with cred_types := a.cred_types ++ [⟨schema, none, none⟩] }

/-- Modelled from the spec: `AgentCfg.find_credential_type` returns the first
credential type matching `(schema_name, schema_version, origin_did)`. -/
def AgentCfg.find_credential_type (a : AgentCfg) (name version : String)
    (origin : Option String) : Option CredTypeCfg :=
  a.cred_types.find? (fun ct =>
    ct.definition.name == name && ct.definition.version == version &&
      ct.definition.origin_did == origin)

/-- `_add_wallet(**params)`: build the `WalletCfg`, generate an id when none
was supplied, refuse a duplicate id, otherwise insert the new entry. -/
def add_wallet (env : LedgerEnv) (st : IndyState) (p : WalletParams) :
    Except Err (String × IndyState) :=
  let cfg : WalletCfg := ⟨p.wallet_id, p.name, p.seed, false⟩
  let cfg := if cfg.wallet_id.isEmpty then
    { cfg with wallet_id := make_id env "wallet-" } else cfg
  if containsA st.wallets cfg.wallet_id then
    .error (.indyConfig ("Duplicate wallet ID: " ++ cfg.wallet_id))
  else
    .ok (cfg.wallet_id, { st with wallets := insertA st.wallets cfg.wallet_id cfg })

/-- `_add_agent(agent_type, wallet_id, **params)`: the wallet reference must
be registered; build the `AgentCfg`, generate an id when none was supplied,
refuse a duplicate id, otherwise insert the new entry. -/
def add_agent (env : LedgerEnv) (st : IndyState) (agent_type : AgentType)
    (wallet_id : String) (p : AgentParams) : Except Err (String × IndyState) :=
  if !containsA st.wallets wallet_id then
    .error (.indyConfig ("Wallet ID not registered: " ++ wallet_id))
  else
    let cfg : AgentCfg :=
      ⟨p.agent_id, agent_type, wallet_id, p.did, p.verkey, p.role, [],
        false, false, false, false⟩
    let cfg := if cfg.agent_id.isEmpty then
      { cfg with agent_id := make_id env "agent-" } else cfg
    if containsA st.agents cfg.agent_id then
      .error (.indyConfig ("Duplicate agent ID: " ++ cfg.agent_id))
    else
      .ok (cfg.agent_id, { st with agents := insertA st.agents cfg.agent_id cfg })

/-- `_add_connection(connection_type, agent_id, **params)`: the agent
reference must be registered; build the `ConnectionCfg`, generate an id when
none was supplied, refuse a duplicate id, otherwise insert the new entry. -/
def add_connection (env : LedgerEnv) (st : IndyState) (connection_type : String)
    (agent_id : String) (p : ConnParams) : Except Err (String × IndyState) :=
  if !containsA st.agents agent_id then
    .error (.indyConfig ("Agent ID not registered: " ++ agent_id))
  else
    let cfg : ConnectionCfg :=
      ⟨p.connection_id, connection_type, agent_id, false, false, false⟩
    let cfg := if cfg.connection_id.isEmpty then
      { cfg with connection_id := make_id env "connection-" } else cfg
    if containsA st.connections cfg.connection_id then
      .error (.indyConfig ("Duplicate connection ID: " ++ cfg.connection_id))
    else
      .ok (cfg.connection_id,
        { st with connections := insertA st.connections cfg.connection_id cfg })

/-- `_add_credential_type`: the source subscripts `self._agents[issuer_id]`
directly, so an unknown issuer raises `KeyError`; the following
`if not agent: raise IndyConfigError(...)` test is unreachable (a config
object is always truthy).  On success the schema is appended to the issuer's
credential types. -/
def add_credential_type (st : IndyState) (issuer_id schema_name schema_version : String)
    (origin_did : Option String) (attr_names : List String) :
    Except Err IndyState :=
  match lookupA st.agents issuer_id with
  | none => .error (.keyError issuer_id)
  | some agent =>
    let schema : SchemaCfg := ⟨schema_name, schema_version, attr_names, origin_did⟩
    .ok { st with
      agents := updateA st.agents issuer_id (agent.add_credential_type schema) }

/-- `_get_wallet_status`. -/
def get_wallet_status (st : IndyState) (wallet_id : String) : Reply :=
  match lookupA st.wallets wallet_id with
  | some w => .walletStatus wallet_id w.status
  | none => .fail ("Unregistered wallet: " ++ wallet_id)

/-- `_get_agent_status`. -/
def get_agent_status (st : IndyState) (agent_id : String) : Reply :=
  match lookupA st.agents agent_id with
  | some a => .agentStatus agent_id a.status.1 a.status.2.1 a.status.2.2
  | none => .fail ("Unregistered agent: " ++ agent_id)

/-- `_get_connection_status`. -/
def get_connection_status (st : IndyState) (connection_id : String) : Reply :=
  match lookupA st.connections connection_id with
  | some c => .connectionStatus connection_id c.status.1 c.status.2.1 c.status.2.2
  | none => .fail ("Unregistered connection: " ++ connection_id)

/-- `_fetch_genesis_txn`: one bounded-timeout GET of `<ledger_url>/genesis`;
a transport error, a non-200 status or a body whose first line is not truthy
JSON raises (via the unbound name `ServiceSyncError`); otherwise the body is
written to the target path opened with mode `"x"`. -/
def fetch_genesis_txn (env : LedgerEnv) (url path : String) :
    Except Err Bool × List LCall :=
  let tr := [LCall.fetchGenesis url]
  if !env.fetch_conn_ok url then
    (.error (.unboundSyncError "Error downloading genesis transaction file"), tr)
  else if env.fetch_status url ≠ 200 then
    (.error (.unboundSyncError "Error downloading genesis file: status"), tr)
  else if !env.fetch_body_json_ok url then
    (.error (.unboundSyncError "Genesis transaction file is not valid JSON"), tr)
  else
    (.ok true, tr ++ [LCall.writeGenesis path])

/-- `_check_genesis_path`: skip when `self._genesis_path` is already truthy;
fail with `IndyConfigError` when the config has no truthy `genesis_path`;
when the file does not exist, fail with `IndyConfigError` when no truthy
`ledger_url` is configured, else create the parent directory if needed and
fetch the file; when the path exists but is a directory, fail with
`IndyConfigError`. -/
def check_genesis_path (env : LedgerEnv) (st : IndyState) :
    Except Err Unit × IndyState × List LCall :=
  match getTruthy st.genesis_path with
  | some _ => (.ok (), st, [])
  | none =>
    match getTruthy st.config_genesis_path with
    | none => (.error (.indyConfig "Missing genesis_path"), st, [])
    | some path =>
      if !env.path_exists path then
        match getTruthy st.ledger_url with
        | none =>
          (.error (.indyConfig "Cannot retrieve genesis transaction without ledger_url"),
            st, [])
        | some url =>
          let tr₁ := if !env.parent_exists path then [LCall.mkdirParents path] else []
          match fetch_genesis_txn env url path with
          | (.error e, tr₂) => (.error e, st, tr₁ ++ tr₂)
          | (.ok _, tr₂) =>
            (.ok (), { st with genesis_path := some path }, tr₁ ++ tr₂)
      else if env.path_is_dir path then
        (.error (.indyConfig "genesis_path must not point to a directory"), st, [])
      else
        (.ok (), { st with genesis_path := some path }, [])

/-- `_setup_pool`: at most once per process — resolve the genesis file, then
open the shared `NodePool` handle and mark the service opened. -/
def setup_pool (env : LedgerEnv) (st : IndyState) :
    Except Err Unit × IndyState × List LCall :=
  if st.opened then (.ok (), st, [])
  else
    match check_genesis_path env st with
    | (.error e, st', tr) => (.error e, st', tr)
    | (.ok _, st', tr) => (.ok (), { st' with opened := true }, tr ++ [LCall.poolOpen])

/-- `_check_registration`: `get_nym` the agent's DID; when absent, fail if
auto-registration is disabled (a `raise ServiceSyncError(...)` on an unbound
name), otherwise POST to `<ledger_url>/register` (requiring a truthy
`ledger_url`), failing when the HTTP status is not 200 or the response JSON
carries no DID. -/
def check_registration (env : LedgerEnv) (st : IndyState) (a : AgentCfg)
    (auto_register : Bool) : Except Err Unit × List LCall :=
  let tr₀ := [LCall.getNym a.did]
  if env.nym_found a.did then (.ok (), tr₀)
  else if !auto_register then
    (.error (.unboundSyncError
      "DID is not registered on the ledger and auto-registration disabled"), tr₀)
  else
    match getTruthy st.ledger_url with
    | none => (.error (.indyConfig "Cannot register DID without ledger_url"), tr₀)
    | some _ =>
      let tr := tr₀ ++ [LCall.registerDid a.did]
      if !env.register_http_ok a.did then
        (.error (.unboundSyncError "DID registration failed: status"), tr)
      else if !env.register_resp_ok a.did then
        (.error (.unboundSyncError "DID registration failed: no DID in response"), tr)
      else (.ok (), tr)

/-- Second half of `_publish_schema`: check the ledger for the credential
definition and publish it if absent.  The source call
`send_cred_def(schema_json, ...)` references the local `schema_json`, which is
bound only when the first (schema) block ran in this invocation; when that
block was skipped (`ledger_schema` already present) the reference raises
`UnboundLocalError`.  Reading `cred_type["ledger_schema"]["seqNo"]` with no
ledger schema raises `TypeError`. -/
def publish_cred_def (env : LedgerEnv) (issuer : AgentCfg) (ct : CredTypeCfg)
    (schemaJsonBound : Bool) : Except Err Unit × CredTypeCfg × List LCall :=
  match ct.cred_def with
  | some _ => (.ok (), ct, [])
  | none =>
    match ct.ledger_schema with
    | none => (.error (.typeError "NoneType is not subscriptable"), ct, [])
    | some seqNo =>
      let tr := [LCall.getCredDef seqNo]
      if env.cred_def_on_ledger issuer.did seqNo then
        (.ok (), { ct with cred_def := some (env.ledger_cred_def issuer.did seqNo) }, tr)
      else if schemaJsonBound then
        (.ok (), { ct with cred_def := some env.sent_cred_def },
          tr ++ [LCall.sendCredDef ct.definition.name ct.definition.version])
      else
        (.error (.unboundLocal "schema_json"), ct, tr)

/-- `_publish_schema`: when the credential type has no `ledger_schema`, check
the ledger for the schema (`get_schema`), publishing it (`send_schema`) on an
`AbsentSchema` signal and failing when the published schema carries no
`seqNo`; then check/publish the credential definition likewise. -/
def publish_schema (env : LedgerEnv) (issuer : AgentCfg) (ct : CredTypeCfg) :
    Except Err Unit × CredTypeCfg × List LCall :=
  let d := ct.definition
  match ct.ledger_schema with
  | some _ => publish_cred_def env issuer ct false
  | none =>
    let tr₀ := [LCall.getSchema d.name d.version]
    if env.schema_on_ledger issuer.did d.name d.version then
      let seqNo := env.ledger_schema_seqNo issuer.did d.name d.version
      let ct₁ := { ct with ledger_schema := some seqNo }
      match publish_cred_def env issuer ct₁ true with
      | (r, ct₂, tr) => (r, ct₂, tr₀ ++ tr)
    else
      let tr₁ := tr₀ ++ [LCall.sendSchema d.name d.version]
      if env.send_schema_seqNo = 0 then
        (.error (.unboundSyncError "Schema was not published to ledger"), ct, tr₁)
      else
        let ct₁ := { ct with ledger_schema := some env.send_schema_seqNo }
        match publish_cred_def env issuer ct₁ true with
        | (r, ct₂, tr) => (r, ct₂, tr₁ ++ tr)

/-- The `for cred_type in agent.cred_types: await self._publish_schema(...)`
loop; an exception aborts the loop, keeping the credential types already
updated in place. -/
def publishAll (env : LedgerEnv) (issuer : AgentCfg) :
    List CredTypeCfg → Except Err Unit × List CredTypeCfg × List LCall
  | [] => (.ok (), [], [])
  | ct :: rest =>
    match publish_schema env issuer ct with
    | (.error e, ct', tr) => (.error e, ct' :: rest, tr)
    | (.ok _, ct', tr) =>
      match publishAll env issuer rest with
      | (r, rest', tr₂) => (r, ct' :: rest', tr ++ tr₂)

/-- Tail of `_sync_agent` after the registration check: publish every
credential type, then mark the agent synced. -/
def sync_agent_publish (env : LedgerEnv) (a : AgentCfg) (tr : List LCall) :
    Except Err Bool × AgentCfg × List LCall :=
  match publishAll env a a.cred_types with
  | (.error e, cts, trp) => (.error e, { a with cred_types := cts }, tr ++ trp)
  | (.ok _, cts, trp) =>
    (.ok true, { a with cred_types := cts, synced := true }, tr ++ trp)

/-- Tail of `_sync_agent` after the creation step: open the agent, run the DID
registration check when not yet registered (with `auto_register` defaulting to
`True` when the config has no such key), then publish schemas and mark
synced. -/
def sync_agent_opened (env : LedgerEnv) (st : IndyState) (a : AgentCfg)
    (tr₀ : List LCall) : Except Err Bool × AgentCfg × List LCall :=
  let a₁ := { a with opened := true }
  let tr₁ := tr₀ ++ [LCall.agentOpen a.agent_id]
  if a₁.registered then sync_agent_publish env a₁ tr₁
  else
    let auto := st.config_auto_register.getD true
    match check_registration env st a₁ auto with
    | (.error e, trc) => (.error e, a₁, tr₁ ++ trc)
    | (.ok _, trc) => sync_agent_publish env { a₁ with registered := true } (tr₁ ++ trc)

/-- `_sync_agent`: a synced agent is returned unchanged; an uncreated agent
whose wallet (looked up by plain subscript — `KeyError` when absent) is not
yet created defers, returning `false` with no ledger call; otherwise the
agent is created if needed, opened, registered and its schemas published. -/
def sync_agent (env : LedgerEnv) (st : IndyState) (a : AgentCfg) :
    Except Err Bool × AgentCfg × List LCall :=
  if a.synced then (.ok true, a, [])
  else if a.created then sync_agent_opened env st a []
  else
    match lookupA st.wallets a.wallet_id with
    | none => (.error (.keyError a.wallet_id), a, [])
    | some w =>
      if w.created then
        sync_agent_opened env st { a with created := true }
          [LCall.agentCreate a.agent_id]
      else (.ok false, a, [])

/-- Tail of `_sync_connection` after the creation step: open the connection
if needed — building the signing HTTP client looks the agent's wallet up by
plain subscript (`KeyError` when absent) — then run the connection's
protocol-specific sync step (modelled from the spec: `ConnectionCfg.sync`
marks the connection synced when the collaborator reports success). -/
def sync_connection_created (env : LedgerEnv) (st : IndyState) (agent : AgentCfg)
    (c : ConnectionCfg) (tr₁ : List LCall) :
    Except Err Bool × ConnectionCfg × List LCall :=
  if c.opened then
    let c' := { c with synced := c.synced || env.conn_sync_ok c.connection_id }
    (.ok c'.synced, c', tr₁ ++ [LCall.connSync c.connection_id])
  else
    match lookupA st.wallets agent.wallet_id with
    | none => (.error (.keyError agent.wallet_id), c, tr₁)
    | some _ =>
      let c₂ := { c with opened := true }
      let c₃ := { c₂ with synced := c₂.synced || env.conn_sync_ok c.connection_id }
      (.ok c₃.synced, c₃,
        tr₁ ++ [LCall.connOpen c.connection_id, LCall.connSync c.connection_id])

/-- `_sync_connection`: the owning agent is looked up by plain subscript
(`KeyError` when absent); a synced connection is returned unchanged; an
uncreated connection defers (returns `false`, no ledger call) unless its
agent is synced; otherwise it is created, opened and synced. -/
def sync_connection (env : LedgerEnv) (st : IndyState) (c : ConnectionCfg) :
    Except Err Bool × ConnectionCfg × List LCall :=
  match lookupA st.agents c.agent_id with
  | none => (.error (.keyError c.agent_id), c, [])
  | some agent =>
    if c.synced then (.ok true, c, [])
    else if c.created then sync_connection_created env st agent c []
    else if !agent.synced then (.ok false, c, [])
    else
      sync_connection_created env st agent { c with created := true }
        [LCall.connCreate c.connection_id]

/-- The `for wallet in self._wallets.values(): if not wallet.created: create`
loop of `_service_sync` (modelled from the spec: `WalletCfg.create` marks the
wallet created via one ledger collaborator call). -/
def createWallets : List (String × WalletCfg) →
    List (String × WalletCfg) × List LCall
  | [] => ([], [])
  | (k, w) :: rest =>
    let (w', tr₁) :=
      if w.created then (w, ([] : List LCall))
      else ({ w with created := true }, [LCall.walletCreate w.wallet_id])
    let (rest', tr₂) := createWallets rest
    ((k, w') :: rest', tr₁ ++ tr₂)

/-- The agent loop of `_service_sync`: sync each agent in turn, conjoining the
per-agent results; an exception aborts the loop, keeping the agents already
updated (the failing agent retains its partial in-place mutations). -/
def syncAgentList (env : LedgerEnv) (st : IndyState) :
    List (String × AgentCfg) →
    Except Err Bool × List (String × AgentCfg) × List LCall
  | [] => (.ok true, [], [])
  | (k, a) :: rest =>
    match sync_agent env st a with
    | (.error e, a', tr) => (.error e, (k, a') :: rest, tr)
    | (.ok b, a', tr) =>
      match syncAgentList env st rest with
      | (.error e, rest', tr₂) => (.error e, (k, a') :: rest', tr ++ tr₂)
      | (.ok b₂, rest', tr₂) => (.ok (b && b₂), (k, a') :: rest', tr ++ tr₂)

/-- The connection loop of `_service_sync`, analogous to the agent loop. -/
def syncConnList (env : LedgerEnv) (st : IndyState) :
    List (String × ConnectionCfg) →
    Except Err Bool × List (String × ConnectionCfg) × List LCall
  | [] => (.ok true, [], [])
  | (k, c) :: rest =>
    match sync_connection env st c with
    | (.error e, c', tr) => (.error e, (k, c') :: rest, tr)
    | (.ok b, c', tr) =>
      match syncConnList env st rest with
      | (.error e, rest', tr₂) => (.error e, (k, c') :: rest', tr ++ tr₂)
      | (.ok b₂, rest', tr₂) => (.ok (b && b₂), (k, c') :: rest', tr ++ tr₂)

/-- `_service_sync`, one full synchronization pass: set up the pool, create
every wallet not yet created, sync every agent, then every connection; the
pass reports `true` only when every agent and connection ended synced. -/
def service_sync (env : LedgerEnv) (st : IndyState) :
    Except Err Bool × IndyState × List LCall :=
  match setup_pool env st with
  | (.error e, st₁, tr) => (.error e, st₁, tr)
  | (.ok _, st₁, tr₀) =>
    let (ws, trW) := createWallets st₁.wallets
    let st₂ := { st₁ with wallets := ws }
    match syncAgentList env st₂ st₂.agents with
    | (.error e, ags, trA) =>
      (.error e, { st₂ with agents := ags }, tr₀ ++ trW ++ trA)
    | (.ok bA, ags, trA) =>
      let st₃ := { st₂ with agents := ags }
      match syncConnList env st₃ st₃.connections with
      | (.error e, cs, trC) =>
        (.error e, { st₃ with connections := cs }, tr₀ ++ trW ++ trA ++ trC)
      | (.ok bC, cs, trC) =>
        (.ok (bA && bC), { st₃ with connections := cs }, tr₀ ++ trW ++ trA ++ trC)

/-- `"{}".format(x)` for an optional value — Python renders `None` as
`"None"`. -/
def formatOpt : Option String → String
  | none => "None"
  | some s => s

/-- The credential offer value object built by `_create_cred_offer`. -/
structure CredentialOffer where
  connection_id : String
  schema_name : String
  schema_version : String
  cred_def : Option Nat
  deriving DecidableEq, Repr

/-- The credential request returned by the holder connection's
`generate_credential_request` (modelled from the spec: it carries the offer it
answers plus collaborator-supplied request data and metadata). -/
structure CredentialRequest where
  cred_offer : CredentialOffer
  data : String
  metadata : String
  connection_id : String
  deriving DecidableEq, Repr

set_option linter.unusedVariables false in
/-- `_issue_credential`: the four configuration checks (unknown connection,
non-issuer agent — the agent itself is read by plain subscript —, unsynced
issuer, missing credential type) all precede any ledger round trip; then the
pipeline runs create-offer → generate-request → create-credential →
store-credential, each collaborator result feeding the next step, any failure
aborting the rest (failures of the external collaborator calls are modelled
from the spec as `PipelineError`s).  Reading
`cred_type["ledger_schema"]["seqNo"]` in `_create_cred_offer` raises
`TypeError` when no ledger schema was published.  The `cred_data` attribute
payload is handed verbatim to the collaborator's `create_cred`, whose reply is
supplied by the environment here. -/
def issue_credential (env : LedgerEnv) (st : IndyState)
    (connection_id schema_name schema_version : String)
    (origin_did : Option String) (cred_data : String) :
    Except Err Reply × List LCall :=
  match lookupA st.connections connection_id with
  | none => (.error (.indyConfig ("Unknown connection id: " ++ connection_id)), [])
  | some conn =>
    match lookupA st.agents conn.agent_id with
    | none => (.error (.keyError conn.agent_id), [])
    | some issuer =>
      if issuer.agent_type ≠ AgentType.issuer then
        (.error (.indyConfig
          ("Cannot issue credential from non-issuer agent: " ++ issuer.agent_id)), [])
      else if !issuer.synced then
        (.error (.indyConfig
          ("Issuer is not yet synchronized: " ++ issuer.agent_id)), [])
      else
        match issuer.find_credential_type schema_name schema_version origin_did with
        | none =>
          (.error (.indyConfig ("Could not locate credential type: " ++
            schema_name ++ "/" ++ schema_version ++ " " ++ formatOpt origin_did)), [])
        | some ct =>
          match ct.ledger_schema with
          | none => (.error (.typeError "NoneType is not subscriptable"), [])
          | some _ =>
            let tr₁ := [LCall.createCredOffer issuer.agent_id]
            if !env.offer_ok then
              (.error (.pipeline "create_cred_offer failed"), tr₁)
            else
              let offer : CredentialOffer :=
                ⟨connection_id, ct.definition.name, ct.definition.version, ct.cred_def⟩
              let tr₂ := tr₁ ++ [LCall.genCredRequest connection_id]
              if !env.gen_request_ok then
                (.error (.pipeline "generate_credential_request failed"), tr₂)
              else
                let _req : CredentialRequest :=
                  ⟨offer, env.req_data, env.req_metadata, connection_id⟩
                let tr₃ := tr₂ ++ [LCall.createCred issuer.agent_id]
                if !env.create_cred_ok then
                  (.error (.pipeline "create_cred failed"), tr₃)
                else
                  let tr₄ := tr₃ ++ [LCall.storeCred connection_id]
                  if !env.store_ok then
                    (.error (.pipeline "store_credential failed"), tr₄)
                  else (.ok (.stored env.stored_result), tr₄)

/-- `_handle_ledger_status`: a single GET of `<ledger_url>/status` with no
surrounding `try`; an unreachable endpoint raises a transport error. -/
def handle_ledger_status (env : LedgerEnv) (st : IndyState) :
    Except Err String × List LCall :=
  let tr := [LCall.httpGetStatus (formatOpt st.ledger_url ++ "/status")]
  match env.ledger_status with
  | none => (.error (.clientError "Cannot connect to host"), tr)
  | some text => (.ok text, tr)

/-- Outcome of `_service_request`: the reply sent back on the exchange (`none`
for an unmatched request variant; `.error` when an exception escapes the
handler uncaught), the service state afterwards, the ledger/HTTP calls made
while handling the request synchronously, and the number of background
full-sync tasks scheduled via `run_task(self._sync())`. -/
structure ReqResult where
  reply : Except Err (Option Reply)
  state : IndyState
  calls : List LCall
  tasks : Nat
  deriving Repr

/-- `_service_request`: dispatch on the request variant.  The register-*
handlers guard their body with `except IndyError`, turning caught domain
errors into `IndyServiceFail(str(e))`; `RegisterAgentReq`,
`RegisterConnectionReq` and `RegisterWalletReq` additionally schedule one
background full-sync task after a successful mutation, while
`RegisterCredentialTypeReq` does not.  `LedgerStatusReq` and the status
queries run unguarded.  An unmatched variant yields no reply. -/
def service_request (env : LedgerEnv) (st : IndyState) : Request → ReqResult
  | .ledgerStatusReq =>
    match handle_ledger_status env st with
    | (.error e, tr) => ⟨.error e, st, tr, 0⟩
    | (.ok text, tr) => ⟨.ok (some (.ledgerStatus text)), st, tr, 0⟩
  | .registerAgent agent_type wallet_id p =>
    match add_agent env st agent_type wallet_id p with
    | .error e =>
      if e.isIndyError then ⟨.ok (some (.fail e.msg)), st, [], 0⟩
      else ⟨.error e, st, [], 0⟩
    | .ok (agent_id, st') =>
      ⟨.ok (some (get_agent_status st' agent_id)), st', [], 1⟩
  | .registerConnection connection_type agent_id p =>
    match add_connection env st connection_type agent_id p with
    | .error e =>
      if e.isIndyError then ⟨.ok (some (.fail e.msg)), st, [], 0⟩
      else ⟨.error e, st, [], 0⟩
    | .ok (connection_id, st') =>
      ⟨.ok (some (get_connection_status st' connection_id)), st', [], 1⟩
  | .registerCredentialType issuer_id schema_name schema_version origin_did attr_names =>
    match add_credential_type st issuer_id schema_name schema_version origin_did attr_names with
    | .error e =>
      if e.isIndyError then ⟨.ok (some (.fail e.msg)), st, [], 0⟩
      else ⟨.error e, st, [], 0⟩
    | .ok st' => ⟨.ok (some .ack), st', [], 0⟩
  | .registerWallet p =>
    match add_wallet env st p with
    | .error e =>
      if e.isIndyError then ⟨.ok (some (.fail e.msg)), st, [], 0⟩
      else ⟨.error e, st, [], 0⟩
    | .ok (wallet_id, st') =>
      ⟨.ok (some (get_wallet_status st' wallet_id)), st', [], 1⟩
  | .agentStatusReq agent_id => ⟨.ok (some (get_agent_status st agent_id)), st, [], 0⟩
  | .connectionStatusReq connection_id =>
    ⟨.ok (some (get_connection_status st connection_id)), st, [], 0⟩
  | .walletStatusReq wallet_id => ⟨.ok (some (get_wallet_status st wallet_id)), st, [], 0⟩
  | .issueCredential connection_id schema_name schema_version origin_did cred_data' =>
    match issue_credential env st connection_id schema_name schema_version
        origin_did cred_data' with
    | (.error e, tr) =>
      if e.isIndyError then ⟨.ok (some (.fail e.msg)), st, tr, 0⟩
      else ⟨.error e, st, tr, 0⟩
    | (.ok reply, tr) => ⟨.ok (some reply), st, tr, 0⟩
  | .otherReq => ⟨.ok none, st, [], 0⟩

/-! Concrete fixtures used by witnesses and counterexamples. -/

/-- A benign environment: every file exists, every endpoint answers, every
collaborator call succeeds. -/
def envT : LedgerEnv where
  rand_suffix := "AbCdEfGhIjKl"
  path_exists := fun _ => true
  path_is_dir := fun _ => false
  parent_exists := fun _ => true
  fetch_conn_ok := fun _ => true
  fetch_status := fun _ => 200
  fetch_body_json_ok := fun _ => true
  nym_found := fun _ => true
  register_http_ok := fun _ => true
  register_resp_ok := fun _ => true
  schema_on_ledger := fun _ _ _ => true
  ledger_schema_seqNo := fun _ _ _ => 7
  send_schema_seqNo := 9
  cred_def_on_ledger := fun _ _ => true
  ledger_cred_def := fun _ _ => 3
  sent_cred_def := 4
  conn_sync_ok := fun _ => true
  offer_ok := true
  gen_request_ok := true
  create_cred_ok := true
  store_ok := true
  req_data := "req-data"
  req_metadata := "req-meta"
  stored_result := "stored-cred"
  ledger_status := some "ledger-ok"

/-- A freshly constructed service with a configured genesis path and ledger
url and no registered resources. -/
def stEmpty : IndyState where
  config_auto_register := none
  config_genesis_path := some "/tmp/genesis"
  genesis_path := none
  ledger_url := some "http://ledger"
  wallets := []
  agents := []
  connections := []
  opened := false

/-- A published demo credential type (`demo` version `1.0`). -/
def ctDemo : CredTypeCfg where
  definition := ⟨"demo", "1.0", ["name", "value"], some "did1"⟩
  ledger_schema := some 7
  cred_def := some 3

/-- Created wallet `w1`. -/
def w1 : WalletCfg := ⟨"w1", "Wallet One", "seed-w1", true⟩

/-- Fully synced issuer agent `a1` on wallet `w1`, owning `ctDemo`. -/
def a1 : AgentCfg where
  agent_id := "a1"
  agent_type := .issuer
  wallet_id := "w1"
  did := "did1"
  verkey := "vk1"
  role := ""
  cred_types := [ctDemo]
  created := true
  opened := true
  registered := true
  synced := true

/-- Synced holder-type connection `c1` owned by `a1`. -/
def c1 : ConnectionCfg := ⟨"c1", "holder", "a1", true, true, true⟩

/-- A service state with `w1`, `a1` and `c1` registered and fully synced. -/
def stIss : IndyState :=
  { stEmpty with
    wallets := [("w1", w1)], agents := [("a1", a1)], connections := [("c1", c1)],
    opened := true }

/-- Agent `a1` before registration and synchronization, with no credential
types. -/
def aU : AgentCfg := { a1 with registered := false, synced := false, cred_types := [] }

/-- The benign environment, except that no DID has a nym on the ledger yet. -/
def envNoNym : LedgerEnv := { envT with nym_found := fun _ => false }

/-- Does a result carry a filesystem error (a Python `OSError`)? -/
def isFsError : Except Err Unit → Bool
  | .error (.osError _) => true
  | _ => false

/-- Is the agent registered under `k` currently synced? -/
def agentSynced (st : IndyState) (k : String) : Bool :=
  match lookupA st.agents k with
  | some a => a.synced
  | none => false

/-- Is the connection registered under `k` currently synced? -/
def connSynced (st : IndyState) (k : String) : Bool :=
  match lookupA st.connections k with
  | some c => c.synced
  | none => false

/-- Wallet `w1` before creation. -/
def wFresh : WalletCfg := { w1 with created := false }

/-- Issuer agent `a1` freshly registered: nothing created or synced yet, one
unpublished credential type. -/
def aFresh : AgentCfg :=
  { a1 with
    cred_types := [{ ctDemo with ledger_schema := none, cred_def := none }],
    created := false, opened := false, registered := false, synced := false }

/-- Connection `c1` freshly registered: nothing created or synced yet. -/
def cFresh : ConnectionCfg := { c1 with created := false, opened := false, synced := false }

/-- A service state holding the fresh wallet, agent and connection, before
any synchronization pass. -/
def stStart : IndyState :=
  { stEmpty with
    wallets := [("w1", wFresh)], agents := [("a1", aFresh)],
    connections := [("c1", cFresh)] }

/-- `stStart` after its wallet has been created (as a later sync pass leaves
it). -/
def stStartW : IndyState := { stStart with wallets := [("w1", w1)] }

/-!  Theorems.  First a few shared helper lemmas, then one theorem (plus
witness or counterexample) per specification claim.  -/

theorem getTruthy_none : getTruthy none = none := rfl

/-- C1 (amended): the `RegisterWalletReq`, `RegisterAgentReq` and
`RegisterConnectionReq` handlers, whenever the local config mutation succeeds,
schedule exactly one full-sync pass as a non-blocking background task and
return the current (possibly not-yet-synced) status computed from the mutated
local state, making no ledger call of their own; the `RegisterCredentialTypeReq`
handler, by contrast, mutates local config state and returns an `Ack` without
scheduling any synchronization task. -/
theorem register_requests_schedule_sync (env : LedgerEnv) (st : IndyState) :
    (∀ p wid st', add_wallet env st p = .ok (wid, st') →
      service_request env st (.registerWallet p)
        = ⟨.ok (some (get_wallet_status st' wid)), st', [], 1⟩)
    ∧ (∀ aty w p aid st', add_agent env st aty w p = .ok (aid, st') →
      service_request env st (.registerAgent aty w p)
        = ⟨.ok (some (get_agent_status st' aid)), st', [], 1⟩)
    ∧ (∀ cty a p cid st', add_connection env st cty a p = .ok (cid, st') →
      service_request env st (.registerConnection cty a p)
        = ⟨.ok (some (get_connection_status st' cid)), st', [], 1⟩)
    ∧ (∀ iid n v o ats st', add_credential_type st iid n v o ats = .ok st' →
      service_request env st (.registerCredentialType iid n v o ats)
        = ⟨.ok (some .ack), st', [], 0⟩) := by
  refine ⟨?_, ?_, ?_, ?_⟩
  · intro p wid st' h
    simp [service_request, h]
  · intro aty w p aid st' h
    simp [service_request, h]
  · intro cty a p cid st' h
    simp [service_request, h]
  · intro iid n v o ats st' h
    simp [service_request, h]

/-- Witness for C1's amended theorem at a concrete successful wallet
registration. -/
theorem register_requests_schedule_sync_witness :
    service_request envT stEmpty (.registerWallet ⟨"w9", "Wallet", "seed"⟩)
      = ⟨.ok (some (get_wallet_status
            { stEmpty with wallets := [("w9", ⟨"w9", "Wallet", "seed", false⟩)] } "w9")),
          { stEmpty with wallets := [("w9", ⟨"w9", "Wallet", "seed", false⟩)] }, [], 1⟩ :=
  (register_requests_schedule_sync envT stEmpty).1 ⟨"w9", "Wallet", "seed"⟩ "w9"
    { stEmpty with wallets := [("w9", ⟨"w9", "Wallet", "seed", false⟩)] } rfl

/-- Counterexample to C1 as stated: a `RegisterCredentialTypeReq` whose local
config mutation succeeds (the handler replies `Ack`) schedules no background
synchronization task at all. -/
theorem register_credential_type_schedules_no_sync :
    (service_request envT stIss
        (.registerCredentialType "a1" "demo2" "1.0" none ["x"])).reply
      = .ok (some .ack)
    ∧ (service_request envT stIss
        (.registerCredentialType "a1" "demo2" "1.0" none ["x"])).tasks = 0 :=
  ⟨rfl, rfl⟩

/-- C2 (code bug): domain errors are not always converted into failure
responses — a `RegisterCredentialTypeReq` naming an unknown issuer escapes the
handler as an uncaught `KeyError` (the `self._agents[issuer_id]` subscript
precedes the dead `if not agent` guard), and a `LedgerStatusReq` against an
unreachable ledger endpoint escapes as an uncaught transport error (that
dispatch branch has no `try` at all). -/
theorem uncaught_faults_escape_service_request :
    (service_request envT stEmpty
        (.registerCredentialType "missing" "demo" "1.0" none [])).reply
      = .error (.keyError "missing")
    ∧ (service_request { envT with ledger_status := none } stEmpty
        .ledgerStatusReq).reply
      = .error (.clientError "Cannot connect to host") :=
  ⟨rfl, rfl⟩

/-- C3: registering a wallet, agent or connection under an explicit id that is
already present in the corresponding registry fails with a configuration error
turned into a failure response, and leaves the service state — in particular
the existing entry — completely unchanged. -/
theorem register_duplicate_id_rejected (env : LedgerEnv) (st : IndyState) :
    (∀ p : WalletParams, p.wallet_id.isEmpty = false →
      containsA st.wallets p.wallet_id = true →
      ∃ msg, add_wallet env st p = .error (.indyConfig msg)
        ∧ service_request env st (.registerWallet p)
            = ⟨.ok (some (.fail msg)), st, [], 0⟩)
    ∧ (∀ (aty : AgentType) (wid : String) (p : AgentParams),
      p.agent_id.isEmpty = false →
      containsA st.agents p.agent_id = true →
      ∃ msg, add_agent env st aty wid p = .error (.indyConfig msg)
        ∧ service_request env st (.registerAgent aty wid p)
            = ⟨.ok (some (.fail msg)), st, [], 0⟩)
    ∧ (∀ (cty aid : String) (p : ConnParams),
      p.connection_id.isEmpty = false →
      containsA st.connections p.connection_id = true →
      ∃ msg, add_connection env st cty aid p = .error (.indyConfig msg)
        ∧ service_request env st (.registerConnection cty aid p)
            = ⟨.ok (some (.fail msg)), st, [], 0⟩) := by
  refine ⟨?_, ?_, ?_⟩
  · intro p hne hdup
    refine ⟨"Duplicate wallet ID: " ++ p.wallet_id, ?_, ?_⟩
    · simp [add_wallet, hne, hdup]
    · simp [service_request, add_wallet, hne, hdup, Err.isIndyError, Err.msg]
  · intro aty wid p hne hdup
    by_cases hw : containsA st.wallets wid
    · refine ⟨"Duplicate agent ID: " ++ p.agent_id, ?_, ?_⟩
      · simp [add_agent, hw, hne, hdup]
      · simp [service_request, add_agent, hw, hne, hdup, Err.isIndyError, Err.msg]
    · refine ⟨"Wallet ID not registered: " ++ wid, ?_, ?_⟩
      · simp [add_agent, hw]
      · simp [service_request, add_agent, hw, Err.isIndyError, Err.msg]
  · intro cty aid p hne hdup
    by_cases ha : containsA st.agents aid
    · refine ⟨"Duplicate connection ID: " ++ p.connection_id, ?_, ?_⟩
      · simp [add_connection, ha, hne, hdup]
      · simp [service_request, add_connection, ha, hne, hdup, Err.isIndyError, Err.msg]
    · refine ⟨"Agent ID not registered: " ++ aid, ?_, ?_⟩
      · simp [add_connection, ha]
      · simp [service_request, add_connection, ha, Err.isIndyError, Err.msg]

/-- Witness for C3 at concrete duplicate registrations of `w1`, `a1` and
`c1`. -/
theorem register_duplicate_id_rejected_witness :
    (∃ msg, add_wallet envT stIss ⟨"w1", "n", "s"⟩ = .error (.indyConfig msg)
      ∧ service_request envT stIss (.registerWallet ⟨"w1", "n", "s"⟩)
          = ⟨.ok (some (.fail msg)), stIss, [], 0⟩)
    ∧ (∃ msg, add_agent envT stIss .issuer "w1" ⟨"a1", "d", "v", ""⟩
          = .error (.indyConfig msg)
      ∧ service_request envT stIss (.registerAgent .issuer "w1" ⟨"a1", "d", "v", ""⟩)
          = ⟨.ok (some (.fail msg)), stIss, [], 0⟩)
    ∧ (∃ msg, add_connection envT stIss "holder" "a1" ⟨"c1"⟩
          = .error (.indyConfig msg)
      ∧ service_request envT stIss (.registerConnection "holder" "a1" ⟨"c1"⟩)
          = ⟨.ok (some (.fail msg)), stIss, [], 0⟩) :=
  ⟨(register_duplicate_id_rejected envT stIss).1 ⟨"w1", "n", "s"⟩ (by decide) (by decide),
   (register_duplicate_id_rejected envT stIss).2.1 .issuer "w1" ⟨"a1", "d", "v", ""⟩
     (by decide) (by decide),
   (register_duplicate_id_rejected envT stIss).2.2 "holder" "a1" ⟨"c1"⟩
     (by decide) (by decide)⟩

/-- C6: `issue_credential` fails with a configuration error — before any
ledger round trip (the call trace is empty) — whenever the connection id is
unknown, the owning agent is not of issuer type, the issuer is not yet
synced, or the issuer has no credential type matching the requested
`(schema_name, schema_version, origin_did)`. -/
theorem issue_credential_config_errors (env : LedgerEnv) (st : IndyState)
    (cid name ver : String) (origin : Option String) (data : String) :
    (lookupA st.connections cid = none →
      issue_credential env st cid name ver origin data
        = (.error (.indyConfig ("Unknown connection id: " ++ cid)), []))
    ∧ (∀ conn issuer, lookupA st.connections cid = some conn →
        lookupA st.agents conn.agent_id = some issuer →
        issuer.agent_type ≠ .issuer →
        issue_credential env st cid name ver origin data
          = (.error (.indyConfig ("Cannot issue credential from non-issuer agent: "
              ++ issuer.agent_id)), []))
    ∧ (∀ conn issuer, lookupA st.connections cid = some conn →
        lookupA st.agents conn.agent_id = some issuer →
        issuer.agent_type = .issuer → issuer.synced = false →
        issue_credential env st cid name ver origin data
          = (.error (.indyConfig ("Issuer is not yet synchronized: "
              ++ issuer.agent_id)), []))
    ∧ (∀ conn issuer, lookupA st.connections cid = some conn →
        lookupA st.agents conn.agent_id = some issuer →
        issuer.agent_type = .issuer → issuer.synced = true →
        issuer.find_credential_type name ver origin = none →
        issue_credential env st cid name ver origin data
          = (.error (.indyConfig ("Could not locate credential type: "
              ++ name ++ "/" ++ ver ++ " " ++ formatOpt origin)), [])) := by
  refine ⟨?_, ?_, ?_, ?_⟩
  · intro h
    simp [issue_credential, h]
  · intro conn issuer hc ha ht
    simp [issue_credential, hc, ha, ht]
  · intro conn issuer hc ha ht hs
    simp [issue_credential, hc, ha, ht, hs]
  · intro conn issuer hc ha ht hs hf
    simp [issue_credential, hc, ha, ht, hs, hf]

/-- Witness for C6 at four concrete states: an unknown connection id, a
holder-type owning agent, an unsynced issuer, and an unmatched schema
reference. -/
theorem issue_credential_config_errors_witness :
    issue_credential envT stIss "nope" "demo" "1.0" (some "did1") "d"
      = (.error (.indyConfig "Unknown connection id: nope"), [])
    ∧ issue_credential envT
        { stIss with agents := [("a1", { a1 with agent_type := .holder })] }
        "c1" "demo" "1.0" (some "did1") "d"
      = (.error (.indyConfig "Cannot issue credential from non-issuer agent: a1"), [])
    ∧ issue_credential envT
        { stIss with agents := [("a1", { a1 with synced := false })] }
        "c1" "demo" "1.0" (some "did1") "d"
      = (.error (.indyConfig "Issuer is not yet synchronized: a1"), [])
    ∧ issue_credential envT stIss "c1" "demo2" "1.0" (some "did1") "d"
      = (.error (.indyConfig "Could not locate credential type: demo2/1.0 did1"), []) :=
  ⟨(issue_credential_config_errors envT stIss "nope" "demo" "1.0" (some "did1") "d").1
      rfl,
   (issue_credential_config_errors envT
      { stIss with agents := [("a1", { a1 with agent_type := .holder })] }
      "c1" "demo" "1.0" (some "did1") "d").2.1
      c1 { a1 with agent_type := .holder } rfl rfl (by decide),
   (issue_credential_config_errors envT
      { stIss with agents := [("a1", { a1 with synced := false })] }
      "c1" "demo" "1.0" (some "did1") "d").2.2.1
      c1 { a1 with synced := false } rfl rfl rfl rfl,
   (issue_credential_config_errors envT stIss "c1" "demo2" "1.0" (some "did1") "d").2.2.2
      c1 a1 rfl rfl rfl rfl (by decide)⟩

/-- C7: in the issuance pipeline the four collaborator round trips run
strictly in the order create-offer → generate-request → create-credential →
store-credential, each result feeding the next; when the request-generation
or credential-creation step fails, no `store_credential` call appears in the
trace and the caller receives a failure response rather than a partial
success. -/
theorem issuance_pipeline_atomic (env : LedgerEnv) (st : IndyState)
    (cid name ver : String) (origin : Option String) (data : String)
    (conn : ConnectionCfg) (issuer : AgentCfg) (ct : CredTypeCfg) (seqNo : Nat)
    (hc : lookupA st.connections cid = some conn)
    (ha : lookupA st.agents conn.agent_id = some issuer)
    (ht : issuer.agent_type = .issuer)
    (hs : issuer.synced = true)
    (hf : issuer.find_credential_type name ver origin = some ct)
    (hl : ct.ledger_schema = some seqNo)
    (ho : env.offer_ok = true) :
    (env.gen_request_ok = false →
      issue_credential env st cid name ver origin data
        = (.error (.pipeline "generate_credential_request failed"),
            [.createCredOffer issuer.agent_id, .genCredRequest cid])
      ∧ LCall.storeCred cid ∉ (issue_credential env st cid name ver origin data).2
      ∧ (service_request env st (.issueCredential cid name ver origin data)).reply
          = .ok (some (.fail "generate_credential_request failed")))
    ∧ (env.gen_request_ok = true → env.create_cred_ok = false →
      issue_credential env st cid name ver origin data
        = (.error (.pipeline "create_cred failed"),
            [.createCredOffer issuer.agent_id, .genCredRequest cid,
             .createCred issuer.agent_id])
      ∧ LCall.storeCred cid ∉ (issue_credential env st cid name ver origin data).2
      ∧ (service_request env st (.issueCredential cid name ver origin data)).reply
          = .ok (some (.fail "create_cred failed")))
    ∧ (env.gen_request_ok = true → env.create_cred_ok = true → env.store_ok = true →
      issue_credential env st cid name ver origin data
        = (.ok (.stored env.stored_result),
            [.createCredOffer issuer.agent_id, .genCredRequest cid,
             .createCred issuer.agent_id, .storeCred cid])) := by
  refine ⟨?_, ?_, ?_⟩
  · intro hg
    have heq : issue_credential env st cid name ver origin data
        = (.error (.pipeline "generate_credential_request failed"),
            [.createCredOffer issuer.agent_id, .genCredRequest cid]) := by
      simp [issue_credential, hc, ha, ht, hs, hf, hl, ho, hg]
    refine ⟨heq, ?_, ?_⟩
    · simp [heq]
    · simp [service_request, heq, Err.isIndyError, Err.msg]
  · intro hg hcr
    have heq : issue_credential env st cid name ver origin data
        = (.error (.pipeline "create_cred failed"),
            [.createCredOffer issuer.agent_id, .genCredRequest cid,
             .createCred issuer.agent_id]) := by
      simp [issue_credential, hc, ha, ht, hs, hf, hl, ho, hg, hcr]
    refine ⟨heq, ?_, ?_⟩
    · simp [heq]
    · simp [service_request, heq, Err.isIndyError, Err.msg]
  · intro hg hcr hst
    simp [issue_credential, hc, ha, ht, hs, hf, hl, ho, hg, hcr, hst]

/-- Witness for C7 on the synced issuer fixture, with the request-generation
step failing. -/
theorem issuance_pipeline_atomic_witness :
    issue_credential { envT with gen_request_ok := false } stIss
        "c1" "demo" "1.0" (some "did1") "d"
      = (.error (.pipeline "generate_credential_request failed"),
          [.createCredOffer "a1", .genCredRequest "c1"])
    ∧ LCall.storeCred "c1" ∉ (issue_credential { envT with gen_request_ok := false }
        stIss "c1" "demo" "1.0" (some "did1") "d").2
    ∧ (service_request { envT with gen_request_ok := false } stIss
        (.issueCredential "c1" "demo" "1.0" (some "did1") "d")).reply
      = .ok (some (.fail "generate_credential_request failed")) :=
  (issuance_pipeline_atomic { envT with gen_request_ok := false } stIss
      "c1" "demo" "1.0" (some "did1") "d" c1 a1 ctDemo 7
      rfl rfl rfl rfl rfl rfl rfl).1 rfl

/-- C9 (amended): the genesis bootstrap check fails with a configuration
error, before attempting any network call (the call trace is empty), when no
`genesis_path` is configured, when the configured file is absent and no
`ledger_url` is configured, and likewise — a configuration error, not a
distinct filesystem-error class — when the configured path points to a
directory. -/
theorem genesis_bootstrap_config_errors (env : LedgerEnv) (st : IndyState)
    (h0 : st.genesis_path = none) :
    (getTruthy st.config_genesis_path = none →
      check_genesis_path env st
        = (.error (.indyConfig "Missing genesis_path"), st, []))
    ∧ (∀ p, getTruthy st.config_genesis_path = some p →
      env.path_exists p = false → getTruthy st.ledger_url = none →
      check_genesis_path env st
        = (.error (.indyConfig "Cannot retrieve genesis transaction without ledger_url"),
            st, []))
    ∧ (∀ p, getTruthy st.config_genesis_path = some p →
      env.path_exists p = true → env.path_is_dir p = true →
      check_genesis_path env st
        = (.error (.indyConfig "genesis_path must not point to a directory"),
            st, [])) := by
  refine ⟨?_, ?_, ?_⟩
  · intro h
    simp [check_genesis_path, h0, getTruthy_none, h]
  · intro p hp hex hurl
    simp [check_genesis_path, h0, getTruthy_none, hp, hex, hurl]
  · intro p hp hex hdir
    simp [check_genesis_path, h0, getTruthy_none, hp, hex, hdir]

/-- Witness for C9's amended theorem at three concrete configurations. -/
theorem genesis_bootstrap_config_errors_witness :
    check_genesis_path envT { stEmpty with config_genesis_path := none }
      = (.error (.indyConfig "Missing genesis_path"),
          { stEmpty with config_genesis_path := none }, [])
    ∧ check_genesis_path { envT with path_exists := fun _ => false }
        { stEmpty with ledger_url := none }
      = (.error (.indyConfig "Cannot retrieve genesis transaction without ledger_url"),
          { stEmpty with ledger_url := none }, [])
    ∧ check_genesis_path { envT with path_is_dir := fun _ => true } stEmpty
      = (.error (.indyConfig "genesis_path must not point to a directory"),
          stEmpty, []) :=
  ⟨(genesis_bootstrap_config_errors envT { stEmpty with config_genesis_path := none }
      rfl).1 rfl,
   (genesis_bootstrap_config_errors { envT with path_exists := fun _ => false }
      { stEmpty with ledger_url := none } rfl).2.1 "/tmp/genesis" rfl rfl rfl,
   (genesis_bootstrap_config_errors { envT with path_is_dir := fun _ => true }
      stEmpty rfl).2.2 "/tmp/genesis" rfl rfl rfl⟩

/-- Counterexample to C9 as stated: when the configured genesis path points
to a directory, the error raised is `IndyConfigError` — the same
configuration-error class as the other bootstrap failures — not a filesystem
error. -/
theorem genesis_dir_raises_config_error_not_fs_error :
    (check_genesis_path { envT with path_is_dir := fun _ => true } stEmpty).1
      = .error (.indyConfig "genesis_path must not point to a directory")
    ∧ isFsError
        (check_genesis_path { envT with path_is_dir := fun _ => true } stEmpty).1
      = false :=
  ⟨rfl, rfl⟩

/-- C10: with no `auto_register` key in the service configuration,
auto-registration defaults to enabled — during agent synchronization an agent
whose DID has no nym on the ledger is registered through the ledger's
`/register` endpoint and the sync proceeds; only an explicit
`auto_register = false` produces the disabled-auto-registration sync failure
(raised, at runtime, through the unbound name `ServiceSyncError`). -/
theorem auto_register_defaults_enabled (env : LedgerEnv) (a : AgentCfg)
    (h1 : a.synced = false) (h2 : a.created = true) (h3 : a.registered = false)
    (h4 : a.cred_types = []) (h5 : env.nym_found a.did = false) :
    (∀ st url, st.config_auto_register = none →
      getTruthy st.ledger_url = some url →
      env.register_http_ok a.did = true → env.register_resp_ok a.did = true →
      sync_agent env st a
        = (.ok true, { a with opened := true, registered := true, synced := true },
            [.agentOpen a.agent_id, .getNym a.did, .registerDid a.did]))
    ∧ (∀ st, st.config_auto_register = some false →
      sync_agent env st a
        = (.error (.unboundSyncError
            "DID is not registered on the ledger and auto-registration disabled"),
            { a with opened := true }, [.agentOpen a.agent_id, .getNym a.did])) := by
  constructor
  · intro st url hauto hurl hhttp hresp
    simp [sync_agent, h1, h2, sync_agent_opened, h3, hauto, check_registration,
      h5, hurl, hhttp, hresp, sync_agent_publish, h4, publishAll]
  · intro st hauto
    simp [sync_agent, h1, h2, sync_agent_opened, h3, hauto, check_registration, h5]

/-- Witness for C10: agent `a1` before registration, a ledger with no nym for
its DID, once with no `auto_register` key and once with
`auto_register = false`. -/
theorem auto_register_defaults_enabled_witness :
    sync_agent envNoNym stEmpty aU
      = (.ok true, { aU with opened := true, registered := true, synced := true },
          [.agentOpen "a1", .getNym "did1", .registerDid "did1"])
    ∧ sync_agent envNoNym { stEmpty with config_auto_register := some false } aU
      = (.error (.unboundSyncError
          "DID is not registered on the ledger and auto-registration disabled"),
          { aU with opened := true }, [.agentOpen "a1", .getNym "did1"]) :=
  ⟨(auto_register_defaults_enabled envNoNym aU rfl rfl rfl rfl rfl).1
      stEmpty "http://ledger" rfl rfl rfl rfl,
   (auto_register_defaults_enabled envNoNym aU rfl rfl rfl rfl rfl).2
      { stEmpty with config_auto_register := some false } rfl⟩


/-!  Helper lemmas shared by the remaining claims: association-list lookups,
relational characterizations of the synchronization functions, and trace
properties.  -/

theorem lookupA_append_some {α : Type} (m₁ m₂ : List (String × α)) (k : String)
    (v : α) (h : lookupA m₁ k = some v) : lookupA (m₁ ++ m₂) k = some v := by
  induction m₁ with
  | nil => simp [lookupA] at h
  | cons p rest ih =>
    obtain ⟨k', v'⟩ := p
    by_cases hk : k' = k
    · subst hk
      simp [lookupA] at h ⊢
      exact h
    · simp [lookupA, hk] at h ⊢
      exact ih h

theorem lookupA_updateA_self {α : Type} (m : List (String × α)) (k : String)
    (v a : α) (h : lookupA m k = some a) : lookupA (updateA m k v) k = some v := by
  induction m with
  | nil => simp [lookupA] at h
  | cons p rest ih =>
    obtain ⟨k', v'⟩ := p
    by_cases hk : k' = k
    · subst hk
      simp [lookupA, updateA]
    · simp [lookupA, updateA, hk] at h ⊢
      exact ih h

theorem lookupA_updateA_ne {α : Type} (m : List (String × α)) (k k' : String)
    (v : α) (h : k' ≠ k) : lookupA (updateA m k v) k' = lookupA m k' := by
  induction m with
  | nil => simp [updateA, lookupA]
  | cons p rest ih =>
    obtain ⟨k₁, v₁⟩ := p
    by_cases hk : k₁ = k
    · subst hk
      simp [updateA, lookupA, Ne.symm h]
      exact ih
    · by_cases hk' : k₁ = k'
      · subst hk'
        simp [updateA, lookupA, hk]
      · simp [updateA, lookupA, hk, hk']
        exact ih

theorem sync_agent_of_synced (env : LedgerEnv) (st : IndyState) (a : AgentCfg)
    (h : a.synced = true) : sync_agent env st a = (.ok true, a, []) := by
  simp [sync_agent, h]

theorem sync_agent_publish_ok (env : LedgerEnv) (a : AgentCfg) (tr : List LCall)
    (r : Except Err Bool) (a' : AgentCfg) (trc : List LCall)
    (hE : sync_agent_publish env a tr = (r, a', trc)) (b : Bool) (h : r = .ok b) :
    b = true ∧ a'.synced = true := by
  subst h
  rcases hp : publishAll env a a.cred_types with ⟨rp, cts, trp⟩
  unfold sync_agent_publish at hE
  rw [hp] at hE
  cases rp with
  | error e => simp at hE
  | ok u =>
    injection hE with h1 h2
    injection h2 with h2a h2b
    injection h1 with hb
    refine ⟨hb.symm, ?_⟩
    rw [← h2a]

theorem sync_agent_opened_ok (env : LedgerEnv) (st : IndyState) (a : AgentCfg)
    (tr : List LCall) (r : Except Err Bool) (a' : AgentCfg) (trc : List LCall)
    (hE : sync_agent_opened env st a tr = (r, a', trc)) (b : Bool) (h : r = .ok b) :
    b = true ∧ a'.synced = true := by
  unfold sync_agent_opened at hE
  dsimp only at hE
  split at hE
  · exact sync_agent_publish_ok env _ _ _ _ _ hE b h
  · split at hE
    · subst h
      simp at hE
    · exact sync_agent_publish_ok env _ _ _ _ _ hE b h

theorem sync_agent_ok_synced (env : LedgerEnv) (st : IndyState) (a : AgentCfg)
    (r : Except Err Bool) (a' : AgentCfg) (tr : List LCall)
    (hE : sync_agent env st a = (r, a', tr)) (b : Bool) (h : r = .ok b) :
    a'.synced = b := by
  subst h
  unfold sync_agent at hE
  split at hE
  · rename_i hs
    injection hE with h1 h2
    injection h2 with h2a h2b
    injection h1 with hb
    rw [← h2a, hs, hb]
  · split at hE
    · obtain ⟨hb, hsy⟩ := sync_agent_opened_ok env st _ _ _ _ _ hE b rfl
      rw [hsy, hb]
    · split at hE
      · simp at hE
      · split at hE
        · obtain ⟨hb, hsy⟩ := sync_agent_opened_ok env st _ _ _ _ _ hE b rfl
          rw [hsy, hb]
        · injection hE with h1 h2
          injection h2 with h2a h2b
          injection h1 with hb
          rw [← h2a, ← hb]
          simp_all

end VonX

namespace VonX

theorem sync_connection_of_synced (env : LedgerEnv) (st : IndyState)
    (c : ConnectionCfg) (h : c.synced = true)
    (r : Except Err Bool) (c' : ConnectionCfg) (tr : List LCall)
    (hE : sync_connection env st c = (r, c', tr)) : c' = c ∧ tr = [] := by
  unfold sync_connection at hE
  rcases hl : lookupA st.agents c.agent_id with _ | ag
  · rw [hl] at hE
    injection hE with h1 h2
    injection h2 with h2a h2b
    exact ⟨h2a.symm, h2b.symm⟩
  · rw [hl] at hE
    simp [h] at hE
    exact ⟨hE.2.1.symm, hE.2.2⟩

theorem sync_connection_created_ok (env : LedgerEnv) (st : IndyState)
    (ag : AgentCfg) (c : ConnectionCfg) (tr₁ : List LCall)
    (r : Except Err Bool) (c' : ConnectionCfg) (trc : List LCall)
    (hE : sync_connection_created env st ag c tr₁ = (r, c', trc))
    (b : Bool) (h : r = .ok b) : c'.synced = b := by
  subst h
  unfold sync_connection_created at hE
  split at hE
  · injection hE with h1 h2
    injection h2 with h2a h2b
    injection h1 with hb
    rw [← h2a, ← hb]
  · split at hE
    · simp at hE
    · injection hE with h1 h2
      injection h2 with h2a h2b
      injection h1 with hb
      rw [← h2a, ← hb]

theorem sync_connection_ok_synced (env : LedgerEnv) (st : IndyState)
    (c : ConnectionCfg) (r : Except Err Bool) (c' : ConnectionCfg) (tr : List LCall)
    (hE : sync_connection env st c = (r, c', tr)) (b : Bool) (h : r = .ok b) :
    c'.synced = b := by
  unfold sync_connection at hE
  split at hE
  · subst h
    simp at hE
  · split at hE
    · rename_i hs
      subst h
      injection hE with h1 h2
      injection h2 with h2a h2b
      injection h1 with hb
      rw [← h2a, hs, hb]
    · split at hE
      · exact sync_connection_created_ok env st _ _ _ _ _ _ hE b h
      · split at hE
        · subst h
          injection hE with h1 h2
          injection h2 with h2a h2b
          injection h1 with hb
          rw [← h2a, ← hb]
          simp_all
        · exact sync_connection_created_ok env st _ _ _ _ _ _ hE b h

theorem syncAgentList_all_synced (env : LedgerEnv) (st : IndyState)
    (l : List (String × AgentCfg)) (h : ∀ p ∈ l, p.2.synced = true) :
    syncAgentList env st l = (.ok true, l, []) := by
  induction l with
  | nil => rfl
  | cons p rest ih =>
    obtain ⟨k, a⟩ := p
    have ha : a.synced = true := h (k, a) (List.mem_cons_self _ _)
    have hrest : ∀ q ∈ rest, q.2.synced = true :=
      fun q hq => h q (List.mem_cons_of_mem _ hq)
    simp [syncAgentList, sync_agent_of_synced env st a ha, ih hrest]

theorem syncAgentList_ok_all (env : LedgerEnv) (st : IndyState)
    (l l' : List (String × AgentCfg)) (tr : List LCall)
    (hE : syncAgentList env st l = (.ok true, l', tr)) :
    ∀ p ∈ l', p.2.synced = true := by
  induction l generalizing l' tr with
  | nil =>
    simp [syncAgentList] at hE
    rw [hE.1]
    simp
  | cons p rest ih =>
    obtain ⟨k, a⟩ := p
    unfold syncAgentList at hE
    rcases hsa : sync_agent env st a with ⟨r₁, a₁, tr₁⟩
    rw [hsa] at hE
    cases r₁ with
    | error e => simp at hE
    | ok b₁ =>
      rcases hrest : syncAgentList env st rest with ⟨r₂, rest', tr₂⟩
      rw [hrest] at hE
      cases r₂ with
      | error e => simp at hE
      | ok b₂ =>
        injection hE with h1 h2
        injection h2 with h2a h2b
        injection h1 with hb
        obtain ⟨hb₁, hb₂⟩ := Bool.and_eq_true b₁ b₂ |>.mp hb
        intro q hq
        rw [← h2a] at hq
        rcases List.mem_cons.mp hq with hq₁ | hq₂
        · rw [hq₁]
          show a₁.synced = true
          rw [sync_agent_ok_synced env st a (Except.ok b₁) a₁ tr₁ hsa b₁ rfl]
          exact hb₁
        · rw [hb₂] at hrest
          exact ih rest' tr₂ hrest q hq₂

theorem syncAgentList_lookup_synced (env : LedgerEnv) (st : IndyState)
    (l l' : List (String × AgentCfg)) (r : Except Err Bool) (tr : List LCall)
    (hE : syncAgentList env st l = (r, l', tr))
    (k : String) (a : AgentCfg) (hla : lookupA l k = some a)
    (hs : a.synced = true) : lookupA l' k = some a := by
  induction l generalizing l' r tr with
  | nil => simp [lookupA] at hla
  | cons p rest ih =>
    obtain ⟨k₁, a₁⟩ := p
    unfold syncAgentList at hE
    rcases hsa : sync_agent env st a₁ with ⟨r₁, a₁', tr₁⟩
    rw [hsa] at hE
    by_cases hk : k₁ = k
    · subst hk
      simp [lookupA] at hla
      subst hla
      rw [sync_agent_of_synced env st a₁ hs] at hsa
      injection hsa with hr₁ hrest₁
      injection hrest₁ with hra hrtr
      subst hra
      cases r₁ with
      | error e => simp at hr₁
      | ok b₁ =>
        rcases hrest : syncAgentList env st rest with ⟨r₂, rest', tr₂⟩
        rw [hrest] at hE
        cases r₂ with
        | error e =>
          injection hE with h1 h2
          injection h2 with h2a h2b
          rw [← h2a]
          simp [lookupA]
        | ok b₂ =>
          injection hE with h1 h2
          injection h2 with h2a h2b
          rw [← h2a]
          simp [lookupA]
    · simp [lookupA, hk] at hla
      cases r₁ with
      | error e =>
        injection hE with h1 h2
        injection h2 with h2a h2b
        rw [← h2a]
        simp [lookupA, hk]
        exact hla
      | ok b₁ =>
        rcases hrest : syncAgentList env st rest with ⟨r₂, rest', tr₂⟩
        rw [hrest] at hE
        cases r₂ with
        | error e =>
          injection hE with h1 h2
          injection h2 with h2a h2b
          rw [← h2a]
          simp [lookupA, hk]
          exact ih rest' _ _ hrest hla
        | ok b₂ =>
          injection hE with h1 h2
          injection h2 with h2a h2b
          rw [← h2a]
          simp [lookupA, hk]
          exact ih rest' _ _ hrest hla

theorem syncConnList_synced_trace (env : LedgerEnv) (st : IndyState)
    (l : List (String × ConnectionCfg)) (r : Except Err Bool)
    (l' : List (String × ConnectionCfg)) (tr : List LCall)
    (hE : syncConnList env st l = (r, l', tr))
    (h : ∀ p ∈ l, p.2.synced = true) : tr = [] := by
  induction l generalizing r l' tr with
  | nil =>
    simp [syncConnList] at hE
    exact hE.2.2
  | cons p rest ih =>
    obtain ⟨k, c⟩ := p
    have hc : c.synced = true := h (k, c) (List.mem_cons_self _ _)
    have hrest : ∀ q ∈ rest, q.2.synced = true :=
      fun q hq => h q (List.mem_cons_of_mem _ hq)
    unfold syncConnList at hE
    rcases hsc : sync_connection env st c with ⟨r₁, c₁, tr₁⟩
    obtain ⟨hc₁, htr₁⟩ := sync_connection_of_synced env st c hc r₁ c₁ tr₁ hsc
    rw [hsc] at hE
    cases r₁ with
    | error e =>
      injection hE with h1 h2
      injection h2 with h2a h2b
      rw [← h2b, htr₁]
    | ok b₁ =>
      rcases hrest2 : syncConnList env st rest with ⟨r₂, rest', tr₂⟩
      rw [hrest2] at hE
      have htr₂ : tr₂ = [] := ih r₂ rest' tr₂ hrest2 hrest
      cases r₂ with
      | error e =>
        injection hE with h1 h2
        injection h2 with h2a h2b
        rw [← h2b, htr₁, htr₂]
        rfl
      | ok b₂ =>
        injection hE with h1 h2
        injection h2 with h2a h2b
        rw [← h2b, htr₁, htr₂]
        rfl

theorem syncConnList_ok_all (env : LedgerEnv) (st : IndyState)
    (l l' : List (String × ConnectionCfg)) (tr : List LCall)
    (hE : syncConnList env st l = (.ok true, l', tr)) :
    ∀ p ∈ l', p.2.synced = true := by
  induction l generalizing l' tr with
  | nil =>
    simp [syncConnList] at hE
    rw [hE.1]
    simp
  | cons p rest ih =>
    obtain ⟨k, c⟩ := p
    unfold syncConnList at hE
    rcases hsc : sync_connection env st c with ⟨r₁, c₁, tr₁⟩
    rw [hsc] at hE
    cases r₁ with
    | error e => simp at hE
    | ok b₁ =>
      rcases hrest : syncConnList env st rest with ⟨r₂, rest', tr₂⟩
      rw [hrest] at hE
      cases r₂ with
      | error e => simp at hE
      | ok b₂ =>
        injection hE with h1 h2
        injection h2 with h2a h2b
        injection h1 with hb
        obtain ⟨hb₁, hb₂⟩ := Bool.and_eq_true b₁ b₂ |>.mp hb
        intro q hq
        rw [← h2a] at hq
        rcases List.mem_cons.mp hq with hq₁ | hq₂
        · rw [hq₁]
          show c₁.synced = true
          rw [sync_connection_ok_synced env st c (Except.ok b₁) c₁ tr₁ hsc b₁ rfl]
          exact hb₁
        · rw [hb₂] at hrest
          exact ih rest' tr₂ hrest q hq₂

theorem syncConnList_lookup_synced (env : LedgerEnv) (st : IndyState)
    (l l' : List (String × ConnectionCfg)) (r : Except Err Bool) (tr : List LCall)
    (hE : syncConnList env st l = (r, l', tr))
    (k : String) (c : ConnectionCfg) (hla : lookupA l k = some c)
    (hs : c.synced = true) : lookupA l' k = some c := by
  induction l generalizing l' r tr with
  | nil => simp [lookupA] at hla
  | cons p rest ih =>
    obtain ⟨k₁, c₁⟩ := p
    unfold syncConnList at hE
    rcases hsc : sync_connection env st c₁ with ⟨r₁, c₁', tr₁⟩
    rw [hsc] at hE
    by_cases hk : k₁ = k
    · subst hk
      simp [lookupA] at hla
      subst hla
      obtain ⟨hc₁, htr₁⟩ := sync_connection_of_synced env st c₁ hs r₁ c₁' tr₁ hsc
      subst hc₁
      cases r₁ with
      | error e =>
        injection hE with h1 h2
        injection h2 with h2a h2b
        rw [← h2a]
        simp [lookupA]
      | ok b₁ =>
        rcases hrest : syncConnList env st rest with ⟨r₂, rest', tr₂⟩
        rw [hrest] at hE
        cases r₂ with
        | error e =>
          injection hE with h1 h2
          injection h2 with h2a h2b
          rw [← h2a]
          simp [lookupA]
        | ok b₂ =>
          injection hE with h1 h2
          injection h2 with h2a h2b
          rw [← h2a]
          simp [lookupA]
    · simp [lookupA, hk] at hla
      cases r₁ with
      | error e =>
        injection hE with h1 h2
        injection h2 with h2a h2b
        rw [← h2a]
        simp [lookupA, hk]
        exact hla
      | ok b₁ =>
        rcases hrest : syncConnList env st rest with ⟨r₂, rest', tr₂⟩
        rw [hrest] at hE
        cases r₂ with
        | error e =>
          injection hE with h1 h2
          injection h2 with h2a h2b
          rw [← h2a]
          simp [lookupA, hk]
          exact ih rest' _ _ hrest hla
        | ok b₂ =>
          injection hE with h1 h2
          injection h2 with h2a h2b
          rw [← h2a]
          simp [lookupA, hk]
          exact ih rest' _ _ hrest hla

theorem createWallets_calls (l : List (String × WalletCfg)) :
    ∀ c ∈ (createWallets l).2, c.isWalletCreate = true := by
  induction l with
  | nil => intro c hc; simp [createWallets] at hc
  | cons p rest ih =>
    obtain ⟨k, w⟩ := p
    intro c hc
    rcases hcw : createWallets rest with ⟨rest', tr₂⟩
    rw [hcw] at ih
    by_cases hw : w.created = true
    · simp [createWallets, hw, hcw] at hc
      exact ih c hc
    · simp [createWallets, hw, hcw] at hc
      rcases hc with hc₁ | hc₂
      · rw [hc₁]; rfl
      · exact ih c hc₂

theorem check_genesis_path_state (env : LedgerEnv) (st : IndyState)
    (r : Except Err Unit) (st' : IndyState) (tr : List LCall)
    (hE : check_genesis_path env st = (r, st', tr)) :
    st'.wallets = st.wallets ∧ st'.agents = st.agents
    ∧ st'.connections = st.connections ∧ st'.opened = st.opened := by
  unfold check_genesis_path at hE
  repeat' split at hE
  all_goals
    injection hE with h1 h2
  all_goals
    injection h2 with h2a h2b
  all_goals
    rw [← h2a]
  all_goals
    simp

theorem setup_pool_of_opened (env : LedgerEnv) (st : IndyState)
    (h : st.opened = true) : setup_pool env st = (.ok (), st, []) := by
  simp [setup_pool, h]

theorem setup_pool_state (env : LedgerEnv) (st : IndyState)
    (r : Except Err Unit) (st' : IndyState) (tr : List LCall)
    (hE : setup_pool env st = (r, st', tr)) :
    st'.wallets = st.wallets ∧ st'.agents = st.agents
    ∧ st'.connections = st.connections
    ∧ (r = .ok () → st'.opened = true) := by
  unfold setup_pool at hE
  split at hE
  · rename_i hop
    injection hE with h1 h2
    injection h2 with h2a h2b
    rw [← h2a]
    exact ⟨rfl, rfl, rfl, fun _ => hop⟩
  · split at hE
    · rename_i e st₁ tr₁ heq
      injection hE with h1 h2
      injection h2 with h2a h2b
      obtain ⟨hw, ha, hc, _⟩ := check_genesis_path_state env st _ _ _ heq
      rw [← h2a]
      refine ⟨hw, ha, hc, ?_⟩
      intro hr
      rw [← h1] at hr
      simp at hr
    · rename_i u st₁ tr₁ heq
      injection hE with h1 h2
      injection h2 with h2a h2b
      obtain ⟨hw, ha, hc, _⟩ := check_genesis_path_state env st _ _ _ heq
      rw [← h2a]
      exact ⟨hw, ha, hc, fun _ => rfl⟩

theorem isPublish_false_of_walletCreate (c : LCall) (h : c.isWalletCreate = true) :
    c.isPublish = false := by
  cases c <;> first | rfl | simp [LCall.isWalletCreate] at h

theorem service_sync_preserves (env : LedgerEnv) (st : IndyState)
    (r : Except Err Bool) (st' : IndyState) (tr : List LCall)
    (hE : service_sync env st = (r, st', tr)) :
    (∀ k a, lookupA st.agents k = some a → a.synced = true →
      lookupA st'.agents k = some a)
    ∧ (∀ k c, lookupA st.connections k = some c → c.synced = true →
      lookupA st'.connections k = some c) := by
  unfold service_sync at hE
  split at hE
  · rename_i e st₁ tr₀ heq
    injection hE with h1 h2
    injection h2 with h2a h2b
    obtain ⟨hw, ha, hc, _⟩ := setup_pool_state env st _ _ _ heq
    rw [← h2a, ha, hc]
    exact ⟨fun k a hla _ => hla, fun k c hla _ => hla⟩
  · rename_i u st₁ tr₀ heq
    obtain ⟨hw, ha, hc, _⟩ := setup_pool_state env st _ _ _ heq
    dsimp only at hE
    rcases hcw : createWallets st₁.wallets with ⟨ws, trW⟩
    rw [hcw] at hE
    split at hE
    · rename_i e ags trA heqA
      injection hE with h1 h2
      injection h2 with h2a h2b
      rw [← h2a]
      constructor
      · intro k a hla hs
        rw [← ha] at hla
        exact syncAgentList_lookup_synced env _ _ _ _ _ heqA k a hla hs
      · intro k c hla hs
        rw [hc]
        exact hla
    · rename_i bA ags trA heqA
      split at hE
      · rename_i e cs trC heqC
        injection hE with h1 h2
        injection h2 with h2a h2b
        rw [← h2a]
        constructor
        · intro k a hla hs
          rw [← ha] at hla
          exact syncAgentList_lookup_synced env _ _ _ _ _ heqA k a hla hs
        · intro k c hla hs
          rw [← hc] at hla
          exact syncConnList_lookup_synced env _ _ _ _ _ heqC k c hla hs
      · rename_i bC cs trC heqC
        injection hE with h1 h2
        injection h2 with h2a h2b
        rw [← h2a]
        constructor
        · intro k a hla hs
          rw [← ha] at hla
          exact syncAgentList_lookup_synced env _ _ _ _ _ heqA k a hla hs
        · intro k c hla hs
          rw [← hc] at hla
          exact syncConnList_lookup_synced env _ _ _ _ _ heqC k c hla hs

theorem service_sync_ok_true (env : LedgerEnv) (st : IndyState)
    (st' : IndyState) (tr : List LCall)
    (hE : service_sync env st = (.ok true, st', tr)) :
    st'.opened = true ∧ (∀ p ∈ st'.agents, p.2.synced = true)
    ∧ (∀ p ∈ st'.connections, p.2.synced = true) := by
  unfold service_sync at hE
  split at hE
  · simp at hE
  · rename_i u st₁ tr₀ heq
    obtain ⟨hw, ha, hc, hop⟩ := setup_pool_state env st _ _ _ heq
    dsimp only at hE
    rcases hcw : createWallets st₁.wallets with ⟨ws, trW⟩
    rw [hcw] at hE
    split at hE
    · simp at hE
    · rename_i bA ags trA heqA
      split at hE
      · simp at hE
      · rename_i bC cs trC heqC
        injection hE with h1 h2
        injection h2 with h2a h2b
        injection h1 with hb
        obtain ⟨hbA, hbC⟩ := Bool.and_eq_true bA bC |>.mp hb
        rw [hbA] at heqA
        rw [hbC] at heqC
        rw [← h2a]
        refine ⟨hop rfl, ?_, ?_⟩
        · exact syncAgentList_ok_all env _ _ _ _ heqA
        · exact syncConnList_ok_all env _ _ _ _ heqC

theorem service_sync_no_publish (env : LedgerEnv) (st : IndyState)
    (hop : st.opened = true)
    (hA : ∀ p ∈ st.agents, p.2.synced = true)
    (hC : ∀ p ∈ st.connections, p.2.synced = true) :
    ∀ c ∈ (service_sync env st).2.2, c.isPublish = false := by
  have hsp := setup_pool_of_opened env st hop
  rcases hcw : createWallets st.wallets with ⟨ws, trW⟩
  have hA2 : syncAgentList env { st with wallets := ws } st.agents
      = (.ok true, st.agents, []) :=
    syncAgentList_all_synced env _ st.agents hA
  rcases hSC : syncConnList env { { st with wallets := ws } with agents := st.agents }
      st.connections with ⟨rC, cs, trC⟩
  have htrC : trC = [] :=
    syncConnList_synced_trace env _ st.connections rC cs trC hSC hC
  subst htrC
  intro c hcmem
  unfold service_sync at hcmem
  rw [hsp] at hcmem
  dsimp only at hcmem
  rw [hcw] at hcmem
  dsimp only at hcmem
  rw [hA2] at hcmem
  dsimp only at hcmem
  rw [hSC] at hcmem
  cases rC with
  | error e =>
    dsimp only at hcmem
    simp at hcmem
    exact isPublish_false_of_walletCreate c
      (createWallets_calls st.wallets c (by rw [hcw]; exact hcmem))
  | ok b =>
    dsimp only at hcmem
    simp at hcmem
    exact isPublish_false_of_walletCreate c (createWallets_calls st.wallets c (by rw [hcw]; exact hcmem))

theorem check_registration_calls (env : LedgerEnv) (st : IndyState) (a : AgentCfg)
    (auto : Bool) (r : Except Err Unit) (trc : List LCall)
    (hE : check_registration env st a auto = (r, trc)) :
    ∀ c ∈ trc, c.isWalletCreate = false := by
  unfold check_registration at hE
  repeat' split at hE
  all_goals
    injection hE with h1 h2
  all_goals
    rw [← h2]
  all_goals
    simp [LCall.isWalletCreate]

theorem publish_cred_def_calls (env : LedgerEnv) (issuer : AgentCfg)
    (ct : CredTypeCfg) (sjb : Bool) (r : Except Err Unit) (ct' : CredTypeCfg)
    (trc : List LCall) (hE : publish_cred_def env issuer ct sjb = (r, ct', trc)) :
    ∀ c ∈ trc, c.isWalletCreate = false := by
  unfold publish_cred_def at hE
  repeat' split at hE
  all_goals
    injection hE with h1 h2
  all_goals
    injection h2 with h2a h2b
  all_goals
    rw [← h2b]
  all_goals
    simp [LCall.isWalletCreate]

theorem publish_schema_calls (env : LedgerEnv) (issuer : AgentCfg)
    (ct : CredTypeCfg) (r : Except Err Unit) (ct' : CredTypeCfg)
    (trc : List LCall) (hE : publish_schema env issuer ct = (r, ct', trc)) :
    ∀ c ∈ trc, c.isWalletCreate = false := by
  unfold publish_schema at hE
  split at hE
  · exact publish_cred_def_calls env issuer ct false r ct' trc hE
  · dsimp only at hE
    split at hE
    · rcases hq : publish_cred_def env issuer
          { ct with ledger_schema := some (env.ledger_schema_seqNo issuer.did
              ct.definition.name ct.definition.version) } true with ⟨r₂, ct₂, tr₂⟩
      rw [hq] at hE
      injection hE with h1 h2
      injection h2 with h2a h2b
      rw [← h2b]
      intro c hc
      rcases List.mem_append.mp hc with hc₁ | hc₂
      · simp at hc₁
        rw [hc₁]
        rfl
      · exact publish_cred_def_calls env issuer _ true _ _ _ hq c hc₂
    · split at hE
      · injection hE with h1 h2
        injection h2 with h2a h2b
        rw [← h2b]
        simp [LCall.isWalletCreate]
      · rcases hq : publish_cred_def env issuer
            { ct with ledger_schema := some env.send_schema_seqNo } true
            with ⟨r₂, ct₂, tr₂⟩
        rw [hq] at hE
        injection hE with h1 h2
        injection h2 with h2a h2b
        rw [← h2b]
        intro c hc
        rcases List.mem_append.mp hc with hc₁ | hc₂
        · simp at hc₁
          rcases hc₁ with hc₁ | hc₁ <;> (rw [hc₁]; rfl)
        · exact publish_cred_def_calls env issuer _ true _ _ _ hq c hc₂

theorem publishAll_calls (env : LedgerEnv) (issuer : AgentCfg) :
    ∀ (l : List CredTypeCfg) (r : Except Err Unit) (l' : List CredTypeCfg)
    (trc : List LCall), publishAll env issuer l = (r, l', trc) →
    ∀ c ∈ trc, c.isWalletCreate = false := by
  intro l
  induction l with
  | nil =>
    intro r l' trc hE
    simp [publishAll] at hE
    rw [hE.2.2]
    simp
  | cons ct rest ih =>
    intro r l' trc hE
    unfold publishAll at hE
    rcases hps : publish_schema env issuer ct with ⟨r₁, ct₁, tr₁⟩
    rw [hps] at hE
    cases r₁ with
    | error e =>
      injection hE with h1 h2
      injection h2 with h2a h2b
      rw [← h2b]
      exact publish_schema_calls env issuer ct _ _ _ hps
    | ok u =>
      rcases hrest : publishAll env issuer rest with ⟨r₂, rest', tr₂⟩
      rw [hrest] at hE
      injection hE with h1 h2
      injection h2 with h2a h2b
      rw [← h2b]
      intro c hc
      rcases List.mem_append.mp hc with hc₁ | hc₂
      · exact publish_schema_calls env issuer ct _ _ _ hps c hc₁
      · exact ih r₂ rest' tr₂ hrest c hc₂

theorem sync_agent_publish_calls (env : LedgerEnv) (a : AgentCfg) (tr : List LCall)
    (r : Except Err Bool) (a' : AgentCfg) (trc : List LCall)
    (hE : sync_agent_publish env a tr = (r, a', trc))
    (h0 : ∀ c ∈ tr, c.isWalletCreate = false) :
    ∀ c ∈ trc, c.isWalletCreate = false := by
  unfold sync_agent_publish at hE
  rcases hp : publishAll env a a.cred_types with ⟨rp, cts, trp⟩
  rw [hp] at hE
  have hall := publishAll_calls env a a.cred_types rp cts trp hp
  cases rp with
  | error e =>
    injection hE with h1 h2
    injection h2 with h2a h2b
    rw [← h2b]
    intro c hc
    rcases List.mem_append.mp hc with hc₁ | hc₂
    · exact h0 c hc₁
    · exact hall c hc₂
  | ok u =>
    injection hE with h1 h2
    injection h2 with h2a h2b
    rw [← h2b]
    intro c hc
    rcases List.mem_append.mp hc with hc₁ | hc₂
    · exact h0 c hc₁
    · exact hall c hc₂

theorem sync_agent_opened_calls (env : LedgerEnv) (st : IndyState) (a : AgentCfg)
    (tr : List LCall) (r : Except Err Bool) (a' : AgentCfg) (trc : List LCall)
    (hE : sync_agent_opened env st a tr = (r, a', trc))
    (h0 : ∀ c ∈ tr, c.isWalletCreate = false) :
    ∀ c ∈ trc, c.isWalletCreate = false := by
  have h1 : ∀ c ∈ tr ++ [LCall.agentOpen a.agent_id], c.isWalletCreate = false := by
    intro c hc
    rcases List.mem_append.mp hc with hc₁ | hc₂
    · exact h0 c hc₁
    · simp at hc₂
      rw [hc₂]
      rfl
  unfold sync_agent_opened at hE
  dsimp only at hE
  split at hE
  · exact sync_agent_publish_calls env _ _ _ _ _ hE h1
  · split at hE
    · rename_i e trcr heq
      injection hE with hh1 hh2
      injection hh2 with h2a h2b
      rw [← h2b]
      intro c hc
      rcases List.mem_append.mp hc with hc₁ | hc₂
      · exact h1 c hc₁
      · exact check_registration_calls env st _ _ _ _ heq c hc₂
    · rename_i u trcr heq
      refine sync_agent_publish_calls env _ _ _ _ _ hE ?_
      intro c hc
      rcases List.mem_append.mp hc with hc₁ | hc₂
      · exact h1 c hc₁
      · exact check_registration_calls env st _ _ _ _ heq c hc₂

theorem sync_agent_calls (env : LedgerEnv) (st : IndyState) (a : AgentCfg)
    (r : Except Err Bool) (a' : AgentCfg) (trc : List LCall)
    (hE : sync_agent env st a = (r, a', trc)) :
    ∀ c ∈ trc, c.isWalletCreate = false := by
  unfold sync_agent at hE
  split at hE
  · injection hE with h1 h2
    injection h2 with h2a h2b
    rw [← h2b]
    simp
  · split at hE
    · exact sync_agent_opened_calls env st _ _ _ _ _ hE (by simp)
    · split at hE
      · injection hE with h1 h2
        injection h2 with h2a h2b
        rw [← h2b]
        simp
      · split at hE
        · refine sync_agent_opened_calls env st _ _ _ _ _ hE ?_
          intro c hc
          simp at hc
          rw [hc]
          rfl
        · injection hE with h1 h2
          injection h2 with h2a h2b
          rw [← h2b]
          simp

theorem sync_agent_publish_prefix (env : LedgerEnv) (a : AgentCfg) (tr : List LCall)
    (r : Except Err Bool) (a' : AgentCfg) (trc : List LCall)
    (hE : sync_agent_publish env a tr = (r, a', trc)) :
    ∃ rest, trc = tr ++ rest := by
  unfold sync_agent_publish at hE
  rcases hp : publishAll env a a.cred_types with ⟨rp, cts, trp⟩
  rw [hp] at hE
  cases rp with
  | error e =>
    injection hE with h1 h2
    injection h2 with h2a h2b
    exact ⟨trp, h2b.symm⟩
  | ok u =>
    injection hE with h1 h2
    injection h2 with h2a h2b
    exact ⟨trp, h2b.symm⟩

theorem sync_agent_opened_prefix (env : LedgerEnv) (st : IndyState) (a : AgentCfg)
    (tr : List LCall) (r : Except Err Bool) (a' : AgentCfg) (trc : List LCall)
    (hE : sync_agent_opened env st a tr = (r, a', trc)) :
    ∃ rest, trc = tr ++ rest := by
  unfold sync_agent_opened at hE
  dsimp only at hE
  split at hE
  · obtain ⟨rest, hrest⟩ := sync_agent_publish_prefix env _ _ _ _ _ hE
    exact ⟨[LCall.agentOpen a.agent_id] ++ rest, by rw [hrest, List.append_assoc]⟩
  · split at hE
    · rename_i e trcr heq
      injection hE with hh1 hh2
      injection hh2 with h2a h2b
      exact ⟨[LCall.agentOpen a.agent_id] ++ trcr, by rw [← h2b, List.append_assoc]⟩
    · rename_i u trcr heq
      obtain ⟨rest, hrest⟩ := sync_agent_publish_prefix env _ _ _ _ _ hE
      refine ⟨[LCall.agentOpen a.agent_id] ++ (trcr ++ rest), ?_⟩
      rw [hrest, List.append_assoc, List.append_assoc]

theorem syncAgentList_defer (env : LedgerEnv) (st : IndyState) (k : String)
    (a : AgentCfg) (hfa : sync_agent env st a = (.ok false, a, [])) :
    ∀ (pre post : List (String × AgentCfg)),
    (syncAgentList env st (pre ++ (k, a) :: post)).1 ≠ .ok true := by
  intro pre
  induction pre with
  | nil =>
    intro post
    rw [List.nil_append]
    simp only [syncAgentList]
    rw [hfa]
    rcases hrest : syncAgentList env st post with ⟨r₂, rest', tr₂⟩
    cases r₂ <;> simp
  | cons p pre' ih =>
    intro post
    obtain ⟨k₁, a₁⟩ := p
    rw [List.cons_append]
    simp only [syncAgentList]
    rcases hsa : sync_agent env st a₁ with ⟨r₁, a₁', tr₁⟩
    cases r₁ with
    | error e => simp
    | ok b₁ =>
      rcases hrest : syncAgentList env st (pre' ++ (k, a) :: post) with ⟨r₂, rest', tr₂⟩
      have hne := ih post
      rw [hrest] at hne
      cases r₂ with
      | error e => simp
      | ok b₂ =>
        simp at hne
        simp [hne]

theorem add_wallet_ok (env : LedgerEnv) (st : IndyState) (p : WalletParams)
    (wid : String) (st' : IndyState) (h : add_wallet env st p = .ok (wid, st')) :
    st'.agents = st.agents ∧ st'.connections = st.connections := by
  unfold add_wallet at h
  dsimp only at h
  repeat' split at h
  all_goals
    first
      | (injection h with h1; injection h1 with ha hst; rw [← hst]; exact ⟨rfl, rfl⟩)
      | injection h

theorem add_agent_ok (env : LedgerEnv) (st : IndyState) (aty : AgentType)
    (wid : String) (p : AgentParams) (aid : String) (st' : IndyState)
    (h : add_agent env st aty wid p = .ok (aid, st')) :
    (∃ cfg, st'.agents = insertA st.agents aid cfg)
    ∧ st'.connections = st.connections := by
  unfold add_agent at h
  dsimp only at h
  repeat' split at h
  all_goals
    first
      | (injection h with h1; injection h1 with ha hst; rw [← hst, ← ha];
          exact ⟨⟨_, rfl⟩, rfl⟩)
      | injection h

theorem add_connection_ok (env : LedgerEnv) (st : IndyState) (cty : String)
    (aid : String) (p : ConnParams) (cid : String) (st' : IndyState)
    (h : add_connection env st cty aid p = .ok (cid, st')) :
    st'.agents = st.agents
    ∧ ∃ cfg, st'.connections = insertA st.connections cid cfg := by
  unfold add_connection at h
  dsimp only at h
  repeat' split at h
  all_goals
    first
      | (injection h with h1; injection h1 with ha hst; rw [← hst, ← ha];
          exact ⟨rfl, ⟨_, rfl⟩⟩)
      | injection h

theorem add_credential_type_ok (st : IndyState)
    (iid n v : String) (o : Option String) (ats : List String) (st' : IndyState)
    (h : add_credential_type st iid n v o ats = .ok st') :
    (∃ agent, lookupA st.agents iid = some agent
      ∧ st'.agents = updateA st.agents iid
          (agent.add_credential_type ⟨n, v, ats, o⟩))
    ∧ st'.connections = st.connections := by
  unfold add_credential_type at h
  split at h
  · simp at h
  · rename_i agent heq
    injection h with h1
    rw [← h1]
    exact ⟨⟨agent, heq, rfl⟩, rfl⟩

theorem agentSynced_true (st : IndyState) (k : String)
    (h : agentSynced st k = true) :
    ∃ a, lookupA st.agents k = some a ∧ a.synced = true := by
  unfold agentSynced at h
  rcases hla : lookupA st.agents k with _ | a
  · rw [hla] at h
    simp at h
  · rw [hla] at h
    exact ⟨a, rfl, h⟩

theorem agentSynced_of_lookup (st : IndyState) (k : String) (a : AgentCfg)
    (hla : lookupA st.agents k = some a) (hs : a.synced = true) :
    agentSynced st k = true := by
  unfold agentSynced
  rw [hla]
  exact hs

theorem connSynced_true (st : IndyState) (k : String)
    (h : connSynced st k = true) :
    ∃ c, lookupA st.connections k = some c ∧ c.synced = true := by
  unfold connSynced at h
  rcases hla : lookupA st.connections k with _ | c
  · rw [hla] at h
    simp at h
  · rw [hla] at h
    exact ⟨c, rfl, h⟩

theorem connSynced_of_lookup (st : IndyState) (k : String) (c : ConnectionCfg)
    (hla : lookupA st.connections k = some c) (hs : c.synced = true) :
    connSynced st k = true := by
  unfold connSynced
  rw [hla]
  exact hs

theorem service_request_synced_mono (env : LedgerEnv) (st : IndyState)
    (req : Request) (k : String) :
    (agentSynced st k = true → agentSynced (service_request env st req).state k = true)
    ∧ (connSynced st k = true → connSynced (service_request env st req).state k = true) := by
  cases req with
  | ledgerStatusReq =>
    rcases hr : handle_ledger_status env st with ⟨r, tr⟩
    cases r <;> simp [service_request, hr]
  | registerAgent aty wid p =>
    rcases hr : add_agent env st aty wid p with e | q
    · cases he : e.isIndyError <;> simp [service_request, hr, he]
    · obtain ⟨aid, st'⟩ := q
      obtain ⟨⟨cfg, hag⟩, hconn⟩ := add_agent_ok env st aty wid p aid st' hr
      simp only [service_request, hr]
      constructor
      · intro hs
        obtain ⟨a, hla, hsy⟩ := agentSynced_true st k hs
        refine agentSynced_of_lookup _ k a ?_ hsy
        rw [hag]
        exact lookupA_append_some st.agents _ k a hla
      · intro hs
        obtain ⟨c, hla, hsy⟩ := connSynced_true st k hs
        refine connSynced_of_lookup _ k c ?_ hsy
        rw [hconn]
        exact hla
  | registerConnection cty aid p =>
    rcases hr : add_connection env st cty aid p with e | q
    · cases he : e.isIndyError <;> simp [service_request, hr, he]
    · obtain ⟨cid, st'⟩ := q
      obtain ⟨hag, cfg, hconn⟩ := add_connection_ok env st cty aid p cid st' hr
      simp only [service_request, hr]
      constructor
      · intro hs
        obtain ⟨a, hla, hsy⟩ := agentSynced_true st k hs
        refine agentSynced_of_lookup _ k a ?_ hsy
        rw [hag]
        exact hla
      · intro hs
        obtain ⟨c, hla, hsy⟩ := connSynced_true st k hs
        refine connSynced_of_lookup _ k c ?_ hsy
        rw [hconn]
        exact lookupA_append_some st.connections _ k c hla
  | registerCredentialType iid n v o ats =>
    rcases hr : add_credential_type st iid n v o ats with e | st'
    · cases he : e.isIndyError <;> simp [service_request, hr, he]
    · obtain ⟨⟨agent, hla₀, hag⟩, hconn⟩ := add_credential_type_ok st iid n v o ats st' hr
      simp only [service_request, hr]
      constructor
      · intro hs
        obtain ⟨a, hla, hsy⟩ := agentSynced_true st k hs
        by_cases hk : k = iid
        · subst hk
          rw [hla₀] at hla
          injection hla with haa
          refine agentSynced_of_lookup _ k (agent.add_credential_type ⟨n, v, ats, o⟩)
            ?_ ?_
          · rw [hag]
            exact lookupA_updateA_self st.agents k _ agent hla₀
          · show agent.synced = true
            rw [haa]
            exact hsy
        · refine agentSynced_of_lookup _ k a ?_ hsy
          rw [hag]
          rw [lookupA_updateA_ne st.agents iid k _ hk]
          exact hla
      · intro hs
        obtain ⟨c, hla, hsy⟩ := connSynced_true st k hs
        refine connSynced_of_lookup _ k c ?_ hsy
        rw [hconn]
        exact hla
  | registerWallet p =>
    rcases hr : add_wallet env st p with e | q
    · cases he : e.isIndyError <;> simp [service_request, hr, he]
    · obtain ⟨wid, st'⟩ := q
      obtain ⟨hag, hconn⟩ := add_wallet_ok env st p wid st' hr
      simp only [service_request, hr]
      constructor
      · intro hs
        obtain ⟨a, hla, hsy⟩ := agentSynced_true st k hs
        refine agentSynced_of_lookup _ k a ?_ hsy
        rw [hag]
        exact hla
      · intro hs
        obtain ⟨c, hla, hsy⟩ := connSynced_true st k hs
        refine connSynced_of_lookup _ k c ?_ hsy
        rw [hconn]
        exact hla
  | agentStatusReq aid => simp [service_request]
  | connectionStatusReq cid => simp [service_request]
  | walletStatusReq wid => simp [service_request]
  | issueCredential cid n v o d =>
    rcases hr : issue_credential env st cid n v o d with ⟨r, tr⟩
    cases r with
    | error e => cases he : e.isIndyError <;> simp [service_request, hr, he]
    | ok rep => simp [service_request, hr]
  | otherReq => simp [service_request]


/-- C4: for an agent not yet created whose wallet is not yet created,
`sync_agent` performs no agent-creation call (its call trace is empty),
returns `false`, and any agents-phase pass over a list containing that agent
cannot report complete; once the wallet is created, `sync_agent` emits the
agent-creation call and performs no wallet-creation call whatsoever. -/
theorem sync_agent_dependency_order (env : LedgerEnv) (st : IndyState) (k : String)
    (a : AgentCfg) (w : WalletCfg)
    (h1 : a.synced = false) (h2 : a.created = false)
    (h3 : lookupA st.wallets a.wallet_id = some w) :
    (w.created = false →
      sync_agent env st a = (.ok false, a, [])
      ∧ ∀ pre post, (syncAgentList env st (pre ++ (k, a) :: post)).1 ≠ .ok true)
    ∧ (w.created = true →
      LCall.agentCreate a.agent_id ∈ (sync_agent env st a).2.2
      ∧ ∀ c ∈ (sync_agent env st a).2.2, c.isWalletCreate = false) := by
  constructor
  · intro hwc
    have heq : sync_agent env st a = (.ok false, a, []) := by
      simp [sync_agent, h1, h2, h3, hwc]
    exact ⟨heq, syncAgentList_defer env st k a heq⟩
  · intro hwc
    have heq : sync_agent env st a
        = sync_agent_opened env st { a with created := true }
            [LCall.agentCreate a.agent_id] := by
      simp [sync_agent, h1, h2, h3, hwc]
    constructor
    · rcases hE : sync_agent_opened env st { a with created := true }
          [LCall.agentCreate a.agent_id] with ⟨r, a', trc⟩
      obtain ⟨rest, hrest⟩ := sync_agent_opened_prefix env st _ _ _ _ _ hE
      rw [heq, hE]
      dsimp only
      rw [hrest]
      simp
    · rcases hE : sync_agent env st a with ⟨r, a', trc⟩
      dsimp only
      exact sync_agent_calls env st a r a' trc hE

/-- Witness for C4 on the fresh fixture, before and after wallet creation. -/
theorem sync_agent_dependency_order_witness :
    sync_agent envT stStart aFresh = (.ok false, aFresh, [])
    ∧ (syncAgentList envT stStart [("a1", aFresh)]).1 ≠ .ok true
    ∧ LCall.agentCreate "a1" ∈ (sync_agent envT stStartW aFresh).2.2
    ∧ LCall.walletCreate "w1" ∉ (sync_agent envT stStartW aFresh).2.2 := by
  have t1 := (sync_agent_dependency_order envT stStart "a1" aFresh wFresh
    rfl rfl rfl).1 rfl
  have t2 := (sync_agent_dependency_order envT stStartW "a1" aFresh w1
    rfl rfl rfl).2 rfl
  refine ⟨t1.1, t1.2 [] [], t2.1, ?_⟩
  intro hmem
  have hfalse := t2.2 _ hmem
  simp [LCall.isWalletCreate] at hfalse

/-- C5: when a full sync pass reports every resource synced, running a second
pass immediately afterwards issues no ledger-publish call (`send_schema` or
`send_cred_def`) for any resource. -/
theorem sync_pass_idempotent (env : LedgerEnv) (st : IndyState)
    (h : (service_sync env st).1 = .ok true) :
    ∀ c ∈ (service_sync env (service_sync env st).2.1).2.2, c.isPublish = false := by
  rcases hE : service_sync env st with ⟨r, st', tr⟩
  rw [hE] at h
  replace h : r = .ok true := h
  subst h
  obtain ⟨hop, hA, hC⟩ := service_sync_ok_true env st st' tr hE
  exact service_sync_no_publish env st' hop hA hC

/-- Witness for C5: after the fixture fully syncs in one pass, the second
pass publishes no schema. -/
theorem sync_pass_idempotent_witness :
    LCall.sendSchema "demo" "1.0" ∉
      (service_sync envT (service_sync envT stStart).2.1).2.2 := by
  intro hmem
  have h := sync_pass_idempotent envT stStart (by rfl) _ hmem
  simp [LCall.isPublish] at h

/-- C8: the `synced` flag of every agent and every connection is monotonic —
no request handled by the service actor and no synchronization pass ever
takes an entity whose `synced` flag is true back to false (the entry, once
synced, survives unchanged under every lookup). -/
theorem synced_monotonic (env : LedgerEnv) (st : IndyState) (k : String) :
    (∀ req : Request,
      (agentSynced st k = true →
        agentSynced (service_request env st req).state k = true)
      ∧ (connSynced st k = true →
        connSynced (service_request env st req).state k = true))
    ∧ ((agentSynced st k = true →
        agentSynced (service_sync env st).2.1 k = true)
      ∧ (connSynced st k = true →
        connSynced (service_sync env st).2.1 k = true)) := by
  refine ⟨fun req => service_request_synced_mono env st req k, ?_, ?_⟩
  · intro hs
    rcases hE : service_sync env st with ⟨r, st', tr⟩
    obtain ⟨hA, _⟩ := service_sync_preserves env st r st' tr hE
    obtain ⟨a, hla, hsy⟩ := agentSynced_true st k hs
    exact agentSynced_of_lookup st' k a (hA k a hla hsy) hsy
  · intro hs
    rcases hE : service_sync env st with ⟨r, st', tr⟩
    obtain ⟨_, hC⟩ := service_sync_preserves env st r st' tr hE
    obtain ⟨c, hla, hsy⟩ := connSynced_true st k hs
    exact connSynced_of_lookup st' k c (hC k c hla hsy) hsy

/-- Witness for C8 on the fully synced fixture: a wallet registration and a
sync pass keep `a1` and `c1` synced. -/
theorem synced_monotonic_witness :
    agentSynced (service_request envT stIss
      (.registerWallet ⟨"w2", "n", "s"⟩)).state "a1" = true
    ∧ connSynced (service_sync envT stIss).2.1 "c1" = true :=
  ⟨((synced_monotonic envT stIss "a1").1 (.registerWallet ⟨"w2", "n", "s"⟩)).1 rfl,
   ((synced_monotonic envT stIss "c1").2).2 rfl⟩


end VonX
